import Mathlib

set_option allowUnsafeReducibility true
attribute [semireducible] Rat.add Rat.mul Rat.sub Rat.inv Rat.ofScientific

/-!
Verification development for the "Kiro Challenge" vertical-defense arcade game.

The definitions below are a shallow embedding of the TypeScript sources:
`Entity.ts`, `Player.ts`, `Enemy.ts`, `Barrel.ts`, `PowerUp.ts`, `Projectile.ts`,
`Particle.ts`, `EntityManager.ts`, `PhysicsSystem`/`CollisionSystem`,
`PowerUpManager.ts`, `LevelManager.ts` and the deterministic core of
`GameEngine.update`.  JavaScript `number` values that the embedded code paths
manipulate are represented as `ℚ` (the game logic uses only field operations
and comparisons on them); the multi-shot fan directions, which genuinely use
trigonometry, are represented over `ℝ`.
-/

namespace VDG

/-- Entity kind tags, from `EntityTypes.ts` (`enum EntityType`). -/
inductive EntityType : Type
  | player
  | enemy
  | projectile
  | powerup
  | barrel
  | particle
deriving DecidableEq, Repr

/-- Power-up kinds, from `PowerUpTypes.ts` (`enum PowerUpType`). -/
inductive PowerUpType : Type
  | rapidFire
  | multiShot
  | shield
  | damageBoost
  | healthRestore
deriving DecidableEq, Repr

/--
One simulated object.  This is the state of the abstract TS class `Entity`
together with the kind-specific fields of its subclasses (`Player`, `Enemy`
(basic movement pattern), `Projectile`, `Barrel`, `PowerUp`, `Particle`).
Fields that belong to a different kind than the entity's `etype` are simply
never read by that kind's code paths, mirroring the TS class hierarchy.
Cosmetic-only fields (colors, float animation offsets, descriptions) are
omitted; they are never read by game logic.
-/
structure Ent where
  id : ℕ := 0
  etype : EntityType := EntityType.particle
  posX : ℚ := 0
  posY : ℚ := 0
  velX : ℚ := 0
  velY : ℚ := 0
  sizeX : ℚ := 32
  sizeY : ℚ := 32
  health : ℚ := 1
  maxHealth : ℚ := 1
  active : Bool := true
  canvasW : ℚ := 800
  canvasH : ℚ := 600
  -- Player fields
  moveSpeed : ℚ := 300
  fireRate : ℚ := 3/10
  lastShotTime : ℚ := 0
  shieldActive : Bool := false
  -- Enemy fields (basic movement pattern)
  points : ℚ := 10
  speed : ℚ := 80
  attackDamage : ℚ := 1
  movementTimer : ℚ := 0
  zigzagDir : ℚ := 1
  -- Projectile fields
  damage : ℚ := 1
  ownerIsPlayer : Bool := true
  trailTimer : ℚ := 0
  -- Barrel / PowerUp field: the pre-assigned power-up kind
  puKind : PowerUpType := PowerUpType.rapidFire
  -- PowerUp / Particle fields
  lifeTime : ℚ := 0
  maxLifeTime : ℚ := 1
  gravity : ℚ := 0
  startSize : ℚ := 4
  endSize : ℚ := 0

/-- `Entity.destroy()`: mark the entity inactive. -/
def destroyE (e : Ent) : Ent := { e with active := false }

/-- `Entity.takeDamage(damage)`: subtract, clamp at 0 and destroy on `<= 0`. -/
def takeDamageBase (d : ℚ) (e : Ent) : Ent :=
  if e.health - d ≤ 0 then { e with health := 0, active := false }
  else { e with health := e.health - d }

/--
Dynamically-dispatched `takeDamage`: the `Player` subclass overrides it to
ignore damage while the shield is active; every other kind uses the base
implementation.
-/
def takeDamageE (d : ℚ) (e : Ent) : Ent :=
  if e.etype = EntityType.player ∧ e.shieldActive then e else takeDamageBase d e

/-- `Entity.heal(amount)`: add health, capped at `maxHealth`. -/
def healE (a : ℚ) (e : Ent) : Ent :=
  { e with health := min (e.health + a) e.maxHealth }

/-- Polled input snapshot (`InputSystem` held-state booleans). -/
structure InputState where
  left : Bool := false
  right : Bool := false
  up : Bool := false
  down : Bool := false
deriving DecidableEq, Repr

/--
`Player.handleInput(dt)`: build the velocity from the held keys (in the TS
code a later `if` overwrites the component set by an earlier one, so `right`
wins over `left` and `down` wins over `up`), then advance the shot timer.
-/
def playerHandleInput (inp : InputState) (dt : ℚ) (e : Ent) : Ent :=
  let vx0 : ℚ := if inp.left then -e.moveSpeed else 0
  let vx : ℚ := if inp.right then e.moveSpeed else vx0
  let vy0 : ℚ := if inp.up then -(e.moveSpeed * (1/2)) else 0
  let vy : ℚ := if inp.down then e.moveSpeed * (1/2) else vy0
  { e with velX := vx, velY := vy, lastShotTime := e.lastShotTime + dt }

/--
`Player.constrainToBounds()`: clamp the centre horizontally into
`[halfWidth, canvasWidth - halfWidth]` and vertically into the bottom band
`[canvasHeight*0.6 + halfHeight, canvasHeight - halfHeight]`.
-/
def playerConstrain (e : Ent) : Ent :=
  let hw := e.sizeX / 2
  let hh := e.sizeY / 2
  let x1 : ℚ :=
    if e.posX - hw < 0 then hw
    else if e.posX + hw > e.canvasW then e.canvasW - hw
    else e.posX
  let minY := e.canvasH * (3/5)
  let maxY := e.canvasH - hh
  let y1 : ℚ :=
    if e.posY - hh < minY then minY + hh
    else if e.posY + hh > maxY then maxY
    else e.posY
  { e with posX := x1, posY := y1 }

/-- `Player.update(dt)`: handle input, then constrain to bounds. -/
def playerUpdate (inp : InputState) (dt : ℚ) (e : Ent) : Ent :=
  playerConstrain (playerHandleInput inp dt e)

/--
`Enemy.update(dt)` for the `basic` movement pattern: advance the movement
timer, zigzag (flip direction every `1 / zigzagFrequency = 1/2` seconds,
horizontal speed 30), keep falling at `speed`, and self-destroy once
`posY - sizeY/2 > canvasHeight`.  (The `fast` and `heavy` patterns differ
only in how they set the velocity; no claim depends on them.)
-/
def enemyUpdateBasic (dt : ℚ) (e0 : Ent) : Ent :=
  let e1 := { e0 with movementTimer := e0.movementTimer + dt }
  let e2 :=
    if e1.movementTimer > 1/2 then
      { e1 with zigzagDir := -e1.zigzagDir, movementTimer := 0 }
    else e1
  let e3 := { e2 with velX := 30 * e2.zigzagDir, velY := e2.speed }
  if e3.posY - e3.sizeY / 2 > e3.canvasH then destroyE e3 else e3

/-- `Barrel.update(dt)`: self-destroy once `posY - sizeY/2 > canvasHeight + 50`. -/
def barrelUpdate (e : Ent) : Ent :=
  if e.posY - e.sizeY / 2 > e.canvasH + 50 then destroyE e else e

/--
`PowerUp.update(dt)`: age the pickup, self-destroy after 15 seconds of life
or once `posY - sizeY/2 > canvasHeight + 50`.
-/
def powerUpUpdate (dt : ℚ) (e0 : Ent) : Ent :=
  let e1 := { e0 with lifeTime := e0.lifeTime + dt }
  let e2 := if e1.lifeTime > 15 then destroyE e1 else e1
  if e2.posY - e2.sizeY / 2 > e2.canvasH + 50 then destroyE e2 else e2

/-- `Projectile.isInBounds()`. -/
def projectileInBounds (e : Ent) : Bool :=
  decide (e.posX + e.sizeX / 2 ≥ 0) && decide (e.posX - e.sizeX / 2 ≤ e.canvasW) &&
  decide (e.posY + e.sizeY / 2 ≥ 0) && decide (e.posY - e.sizeY / 2 ≤ e.canvasH)

/-- `Projectile.update(dt)`: advance the trail timer, destroy when out of bounds. -/
def projectileUpdate (dt : ℚ) (e0 : Ent) : Ent :=
  let e1 := { e0 with trailTimer := e0.trailTimer + dt }
  if projectileInBounds e1 then e1 else destroyE e1

/--
`Particle.update(dt)`: age, apply gravity to the velocity, interpolate the
size, destroy once the lifetime is exhausted.
-/
def particleUpdate (dt : ℚ) (e0 : Ent) : Ent :=
  let e1 := { e0 with lifeTime := e0.lifeTime + dt }
  let e2 := if e1.gravity > 0 then { e1 with velY := e1.velY + e1.gravity * dt } else e1
  let prog := e2.lifeTime / e2.maxLifeTime
  let cur := e2.startSize + (e2.endSize - e2.startSize) * prog
  let e3 := { e2 with sizeX := cur, sizeY := cur }
  if e3.lifeTime ≥ e3.maxLifeTime then destroyE e3 else e3

/-- Dynamically-dispatched `entity.update(dt)` over the six entity kinds. -/
def entUpdate (inp : InputState) (dt : ℚ) (e : Ent) : Ent :=
  match e.etype with
  | EntityType.player => playerUpdate inp dt e
  | EntityType.enemy => enemyUpdateBasic dt e
  | EntityType.projectile => projectileUpdate dt e
  | EntityType.powerup => powerUpUpdate dt e
  | EntityType.barrel => barrelUpdate e
  | EntityType.particle => particleUpdate dt e

/-!
## EntityManager

A JS `Map` preserves insertion order, so `entities` is an insertion-ordered
association list with unique keys; `entitiesByType` maps each kind to an
insertion-ordered id set.
-/

/-- `Map.set`: overwrite in place if the key exists, else append. -/
def mapSet (m : List (ℕ × Ent)) (k : ℕ) (v : Ent) : List (ℕ × Ent) :=
  if m.any (fun p => p.1 = k) then
    m.map (fun p => if p.1 = k then (k, v) else p)
  else m ++ [(k, v)]

/-- `Map.delete`. -/
def mapDelete (m : List (ℕ × Ent)) (k : ℕ) : List (ℕ × Ent) :=
  m.filter (fun p => p.1 ≠ k)

/-- `Map.get`. -/
def mapGet (m : List (ℕ × Ent)) (k : ℕ) : Option Ent :=
  (m.find? (fun p => p.1 = k)).map (fun p => p.2)

/-- `Set.add`: append if not already present. -/
def setAdd (l : List ℕ) (x : ℕ) : List ℕ := if x ∈ l then l else l ++ [x]

/-- `Set.delete`. -/
def setDel (l : List ℕ) (x : ℕ) : List ℕ := l.filter (fun y => y ≠ x)

/-- Update an `EntityType`-indexed family at one kind. -/
def bumpByType (f : EntityType → List ℕ) (t : EntityType) (g : List ℕ → List ℕ) :
    EntityType → List ℕ :=
  fun t' => if t' = t then g (f t) else f t'

/-- The state of `EntityManager`. -/
structure EMState where
  entities : List (ℕ × Ent) := []
  toAdd : List Ent := []
  toRemove : List ℕ := []
  byType : EntityType → List ℕ := fun _ => []

/-- `new EntityManager()`: empty map, empty buffers, empty per-kind id sets. -/
def emInit : EMState := {}

/-- `EntityManager.addEntity`: stage for inclusion on the next update. -/
def emAddEntity (e : Ent) (s : EMState) : EMState :=
  { s with toAdd := s.toAdd ++ [e] }

/-- `EntityManager.removeEntity`: stage for removal on the next update. -/
def emRemoveEntity (id : ℕ) (s : EMState) : EMState :=
  { s with toRemove := s.toRemove ++ [id] }

/-- `EntityManager.getAllEntities`. -/
def emGetAll (s : EMState) : List Ent := s.entities.map (fun p => p.2)

/-- `EntityManager.getEntitiesByEntityType`: resolve the kind's id set
against the live map, dropping ids with no live entry. -/
def emGetByType (t : EntityType) (s : EMState) : List Ent :=
  (s.byType t).filterMap (fun id => mapGet s.entities id)

/-- `EntityManager.getEntityCount`. -/
def emCount (s : EMState) : ℕ := s.entities.length

/--
`EntityManager.update(dt)`, in source order:
(1) promote every staged addition into the live map and the kind index,
(2) delete every staged removal from both,
(3) clear both staging buffers,
(4) walk the live map: call `update(dt)` on each active entity and stage
    every entity found inactive for removal (on the NEXT update).
The walk iterates the live `Map`, but its body never inserts or deletes map
entries (it mutates entity objects in place and appends to `entitiesToRemove`
only), so a walk over the fixed entry list is faithful.  The three step
functions below are, in order, one iteration of steps (1), (2) and (4).
-/
def emAddStep (acc : EMState) (e : Ent) : EMState :=
  { acc with
    entities := mapSet acc.entities e.id e
    byType := bumpByType acc.byType e.etype (fun l => setAdd l e.id) }

/-- One iteration of step (2) of `EntityManager.update` (see `emAddStep`). -/
def emRemoveStep (acc : EMState) (id : ℕ) : EMState :=
  let acc1 :=
    match mapGet acc.entities id with
    | some e => { acc with byType := bumpByType acc.byType e.etype (fun l => setDel l id) }
    | none => acc
  { acc1 with entities := mapDelete acc1.entities id }

/-- One entry of the walk in step (4) of `EntityManager.update`. -/
def emWalkEnt (inp : InputState) (dt : ℚ) (p : ℕ × Ent) : ℕ × Ent :=
  if p.2.active then (p.1, entUpdate inp dt p.2) else p

def emUpdate (inp : InputState) (dt : ℚ) (s : EMState) : EMState :=
  let s1 := s.toAdd.foldl emAddStep s
  let s2 := s.toRemove.foldl emRemoveStep s1
  let s3 : EMState := { s2 with toAdd := [], toRemove := [] }
  let newEntities := s3.entities.map (emWalkEnt inp dt)
  let staged := (s3.entities.filter (fun p => ¬ p.2.active)).map (fun p => p.1)
  { s3 with entities := newEntities, toRemove := s3.toRemove ++ staged }

/-!
## PowerUpManager

`activePowerUps` is a JS `Map` keyed by the five-valued `PowerUpType` enum,
embedded as a function `PowerUpType → Option PowerUpEffect`.  The manager
holds a reference to the live `Player` object; here that is an
`Option Ent` (the engine-level model routes it through the entity map to
preserve the aliasing, see `engPUM`/`engSetPUM` below).
-/

/-- `PowerUpConfig` (gameplay fields; `rarity`, `color` and `description`
are cosmetic and never read by the manager). -/
structure PowerUpConfig where
  ptype : PowerUpType
  duration : ℚ
  value : ℚ
deriving DecidableEq, Repr

/-- `PowerUpEffect`. -/
structure PowerUpEffect where
  ptype : PowerUpType
  duration : ℚ
  value : ℚ
  active : Bool
  timeRemaining : ℚ
deriving DecidableEq, Repr

/-- `PowerUp.getPowerUpConfig`: the per-kind config table
(durations 8/10/12/15/0 s, values 0.5/3/1/2/1). -/
def configOf : PowerUpType → PowerUpConfig
  | PowerUpType.rapidFire => ⟨PowerUpType.rapidFire, 8, 1/2⟩
  | PowerUpType.multiShot => ⟨PowerUpType.multiShot, 10, 3⟩
  | PowerUpType.shield => ⟨PowerUpType.shield, 12, 1⟩
  | PowerUpType.damageBoost => ⟨PowerUpType.damageBoost, 15, 2⟩
  | PowerUpType.healthRestore => ⟨PowerUpType.healthRestore, 0, 1⟩

/-- `Player.setFireRate`: floored at the minimum fire rate 0.05. -/
def setFireRateE (r : ℚ) (p : Ent) : Ent := { p with fireRate := max (1/20) r }

/-- `PowerUpManager.applyPowerUp` acting on the player. -/
def pumApplyPlayer (eff : PowerUpEffect) (p : Ent) : Ent :=
  match eff.ptype with
  | PowerUpType.rapidFire => setFireRateE (p.fireRate * eff.value) p
  | PowerUpType.multiShot => p
  | PowerUpType.shield => { p with shieldActive := true }
  | PowerUpType.damageBoost => p
  | PowerUpType.healthRestore => healE eff.value p

/-- The revert half of `PowerUpManager.removePowerUp` acting on the player:
rapid-fire reverts to the hardcoded base rate 0.3, shield switches off,
the other kinds need no revert. -/
def pumRevertPlayer (t : PowerUpType) (p : Ent) : Ent :=
  match t with
  | PowerUpType.rapidFire => setFireRateE (3/10) p
  | PowerUpType.shield => { p with shieldActive := false }
  | _ => p

/-- The state of `PowerUpManager`. -/
structure PUM where
  effects : PowerUpType → Option PowerUpEffect := fun _ => none
  player : Option Ent := none

/-- `PowerUpManager.removePowerUp(type)`: if the effect is absent or no
player is set, return unchanged (in particular the stale map entry is NOT
deleted when the player is null); otherwise revert the player attribute and
delete the map entry. -/
def pumRemove (t : PowerUpType) (s : PUM) : PUM :=
  match s.effects t, s.player with
  | some _, some p =>
      { effects := fun t' => if t' = t then none else s.effects t'
        player := some (pumRevertPlayer t p) }
  | _, _ => s

/-- `PowerUpManager.addPowerUp(config)`: build the effect with
`timeRemaining = config.duration`, remove an existing effect of the same
kind first, apply the effect to the player (skipped when no player is set),
then store it. -/
def pumAdd (cfg : PowerUpConfig) (s : PUM) : PUM :=
  let eff : PowerUpEffect := ⟨cfg.ptype, cfg.duration, cfg.value, true, cfg.duration⟩
  let s1 := if (s.effects cfg.ptype).isSome then pumRemove cfg.ptype s else s
  let s2 : PUM := { s1 with player := s1.player.map (pumApplyPlayer eff) }
  { s2 with effects := fun t' => if t' = cfg.ptype then some eff else s2.effects t' }

/-- The fixed kind order used to walk the effect map (the effects of
distinct kinds touch disjoint state, so any walk order is equivalent to the
JS map's insertion order). -/
def kindsList : List PowerUpType :=
  [PowerUpType.rapidFire, PowerUpType.multiShot, PowerUpType.shield,
   PowerUpType.damageBoost, PowerUpType.healthRestore]

/-- One kind's step of `PowerUpManager.update(dt)`: effects with
`duration > 0` have their remaining time decremented and are removed once
it reaches 0; effects with `duration ≤ 0` are skipped entirely. -/
def pumTick (dt : ℚ) (t : PowerUpType) (s : PUM) : PUM :=
  match s.effects t with
  | none => s
  | some eff =>
      if eff.duration > 0 then
        let eff1 := { eff with timeRemaining := eff.timeRemaining - dt }
        let s1 : PUM := { s with effects := fun t' => if t' = t then some eff1 else s.effects t' }
        if eff1.timeRemaining ≤ 0 then pumRemove t s1 else s1
      else s

/-- `PowerUpManager.update(dt)`. -/
def pumUpdate (dt : ℚ) (s : PUM) : PUM :=
  kindsList.foldl (fun acc t => pumTick dt t acc) s

/-- `PowerUpManager.clear()`: `removePowerUp` on every present kind. -/
def pumClear (s : PUM) : PUM :=
  kindsList.foldl (fun acc t => pumRemove t acc) s

/-- `PowerUpManager.hasPowerUp(type)`. -/
def pumHas (t : PowerUpType) (s : PUM) : Bool := (s.effects t).isSome

/-- `PowerUpManager.getActivePowerUps()`. -/
def pumGetActive (s : PUM) : List PowerUpEffect := kindsList.filterMap s.effects

/-- `PowerUpManager.getMultiShotCount()`. -/
def pumGetMultiShotCount (s : PUM) : ℚ :=
  match s.effects PowerUpType.multiShot with
  | some eff => eff.value
  | none => 1

/-- `PowerUpManager.getDamageMultiplier()`. -/
def pumGetDamageMultiplier (s : PUM) : ℚ :=
  match s.effects PowerUpType.damageBoost with
  | some eff => eff.value
  | none => 1

/-!
## Physics and collision

`PhysicsSystem.update(dt, entities)` Euler-integrates every active entity
and then runs the `O(n²)` pairwise scan.  The `entities` array it receives
is the snapshot `entityManager.getAllEntities()`, whose elements alias the
objects in the manager's map, so here the pass transforms the manager's
entry list directly.
-/

/-- `CollisionSystem.checkAABBCollision` on the two entities' bounding
boxes (`Entity.getBounds`): strict overlap on both axes. -/
def intersectsE (a b : Ent) : Bool :=
  decide (a.posX - a.sizeX / 2 < b.posX + b.sizeX / 2) &&
  decide (a.posX + a.sizeX / 2 > b.posX - b.sizeX / 2) &&
  decide (a.posY - a.sizeY / 2 < b.posY + b.sizeY / 2) &&
  decide (a.posY + a.sizeY / 2 > b.posY - b.sizeY / 2)

/-- `PhysicsSystem.shouldCheckCollision`'s `collisionRules` table. -/
def collisionRules : EntityType → List EntityType
  | EntityType.player => [EntityType.enemy, EntityType.powerup, EntityType.barrel]
  | EntityType.enemy => [EntityType.player, EntityType.projectile]
  | EntityType.projectile => [EntityType.enemy, EntityType.barrel]
  | EntityType.powerup => [EntityType.player]
  | EntityType.barrel => [EntityType.player, EntityType.projectile]
  | EntityType.particle => []

/-- `PhysicsSystem.shouldCheckCollision`. -/
def allowedPair (a b : EntityType) : Bool :=
  decide (b ∈ collisionRules a) || decide (a ∈ collisionRules b)

/--
Dynamically-dispatched `self.onCollision(other)`; returns the updated
`(self, other)` pair (a handler may mutate both objects, e.g. an enemy
damages the player and destroys itself).
-/
def onCollisionE (self other : Ent) : Ent × Ent :=
  match self.etype with
  | EntityType.player =>
      match other.etype with
      | EntityType.enemy => (takeDamageE 1 self, other)
      | _ => (self, other)
  | EntityType.enemy =>
      match other.etype with
      | EntityType.player => (destroyE self, takeDamageE self.attackDamage other)
      | _ => (self, other)
  | EntityType.projectile =>
      if self.ownerIsPlayer then
        match other.etype with
        | EntityType.enemy => (destroyE self, takeDamageE self.damage other)
        | EntityType.barrel => (destroyE self, takeDamageE self.damage other)
        | _ => (self, other)
      else
        match other.etype with
        | EntityType.player => (destroyE self, takeDamageE self.damage other)
        | _ => (self, other)
  | EntityType.powerup =>
      match other.etype with
      | EntityType.player => (destroyE self, other)
      | _ => (self, other)
  | EntityType.barrel =>
      match other.etype with
      | EntityType.projectile => (destroyE self, other)
      | EntityType.player => (destroyE self, other)
      | _ => (self, other)
  | EntityType.particle => (self, other)

/-- The `(i, j)` index pairs with `i < j` visited by the nested loop of
`PhysicsSystem.checkCollisions` over an array of length `n`. -/
def pairIndices (n : ℕ) : List (ℕ × ℕ) :=
  (List.range n).flatMap
    (fun i => ((List.range n).filter (fun j => i < j)).map (fun j => (i, j)))

/-- One iteration of the pairwise scan: re-read the (possibly already
mutated) entities at the two slots, and when both are active, the kind pair
is allow-listed and the boxes overlap, run `a.onCollision(b)` followed by
`b.onCollision(a)` on the updated objects. -/
def collisionStep (m : List (ℕ × Ent)) (ij : ℕ × ℕ) : List (ℕ × Ent) :=
  match m.get? ij.1, m.get? ij.2 with
  | some (ka, a), some (kb, b) =>
      if a.active && b.active && allowedPair a.etype b.etype && intersectsE a b then
        let ab := onCollisionE a b
        let ba := onCollisionE ab.2 ab.1
        (m.set ij.1 (ka, ba.2)).set ij.2 (kb, ba.1)
      else m
  | _, _ => m

/-- `PhysicsSystem.checkCollisions`. -/
def collisionPass (m : List (ℕ × Ent)) : List (ℕ × Ent) :=
  (pairIndices m.length).foldl collisionStep m

/-- The integration half of `PhysicsSystem.update`: move every active
entity by `velocity * dt`. -/
def physMove (dt : ℚ) (m : List (ℕ × Ent)) : List (ℕ × Ent) :=
  m.map (fun p =>
    if p.2.active then
      (p.1, { p.2 with posX := p.2.posX + p.2.velX * dt, posY := p.2.posY + p.2.velY * dt })
    else p)

/-!
## GameEngine (deterministic core of the `playing`-state update)

The modeled sub-steps of `GameEngine.update`, in source order:
auto-shooting, `EntityManager.update`, `PowerUpManager.update`, culling,
`PhysicsSystem.update`, `handleEntityDestruction` (destroyed-entity scoring,
barrel → power-up spawning, bottom-crossing player damage, power-up
collection).  The random spawners (`EnemySpawner`, `BarrelSpawner`), the
purely cosmetic systems (particles, audio, screen shake, rendering,
transitions) and level/game-over bookkeeping are outside the model: they
create none of the entities the claims quantify over.  The engine's
`this.player` field aliases the player object stored inside the entity
manager; the model keeps the player's id and routes every access through
the entity map, which reproduces the aliasing exactly.
-/

/-- The modeled engine state.  `spawnedPU` and `playerDamageEvents` are
observation logs: they record, respectively, every power-up spawn performed
by `spawnPowerUpFromBarrel` and every `player.takeDamage(1)` call made by
the bottom-crossing branch of `handleEntityDestruction`. -/
structure EngState where
  mgr : EMState := {}
  effects : PowerUpType → Option PowerUpEffect := fun _ => none
  playerId : Option ℕ := none
  canvasW : ℚ := 800
  canvasH : ℚ := 600
  score : ℚ := 0
  enemiesKilled : ℕ := 0
  spawnedPU : List (PowerUpType × ℚ × ℚ) := []
  playerDamageEvents : ℕ := 0
  nextId : ℕ := 100

/-- The engine's view of `this.player` (resolved through the entity map). -/
def engPlayer (st : EngState) : Option Ent :=
  st.playerId.bind (fun pid => mapGet st.mgr.entities pid)

/-- Write a mutation of the player object back into the entity map. -/
def engModifyPlayer (f : Ent → Ent) (st : EngState) : EngState :=
  match st.playerId with
  | some pid =>
      match mapGet st.mgr.entities pid with
      | some p =>
          { st with mgr := { st.mgr with entities := mapSet st.mgr.entities pid (f p) } }
      | none => st
  | none => st

/-- The `PowerUpManager` as seen by the engine (aliased player). -/
def engPUM (st : EngState) : PUM := ⟨st.effects, engPlayer st⟩

/-- Write a `PowerUpManager` state back, restoring the player alias. -/
def engSetPUM (s : PUM) (st : EngState) : EngState :=
  let st1 : EngState := { st with effects := s.effects }
  match st.playerId, s.player with
  | some pid, some p =>
      { st1 with mgr := { st1.mgr with entities := mapSet st1.mgr.entities pid p } }
  | _, _ => st1

/-- `GameEngine.createPlayerProjectile` for the single-shot branch
(`getMultiShotCount() = 1`): one projectile straight up with the damage
multiplier, speed 500 (so velocity `(0, -500)`), canvas bounds set.  The
multi-shot fan branch computes trigonometric directions; it is modeled
separately over `ℝ` (`multiShotDirections` below) and no engine-model run
has a multi-shot effect active. -/
def engCreatePlayerProjectile (pos : ℚ × ℚ) (st : EngState) : EngState :=
  if pumGetMultiShotCount (engPUM st) = 1 then
    let proj : Ent :=
      { id := st.nextId, etype := EntityType.projectile,
        posX := pos.1, posY := pos.2, velX := 0, velY := -500,
        sizeX := 6, sizeY := 12, health := 1, maxHealth := 1, active := true,
        canvasW := st.canvasW, canvasH := st.canvasH,
        damage := pumGetDamageMultiplier (engPUM st), ownerIsPlayer := true }
    { st with mgr := emAddEntity proj st.mgr, nextId := st.nextId + 1 }
  else st

/-- `GameEngine.handleAutoShooting`: when the player is live and its
fire-rate cooldown has elapsed, `Player.shoot()` resets the shot timer and
returns the muzzle position, and a projectile is created there. -/
def engAutoShoot (st : EngState) : EngState :=
  match st.playerId with
  | some pid =>
      match mapGet st.mgr.entities pid with
      | some p =>
          if p.active && decide (p.lastShotTime ≥ p.fireRate) then
            let p1 := { p with lastShotTime := 0 }
            let st1 : EngState :=
              { st with mgr := { st.mgr with entities := mapSet st.mgr.entities pid p1 } }
            engCreatePlayerProjectile (p.posX, p.posY - p.sizeY / 2 - 5) st1
          else st
      | none => st
  | none => st

/-- `GameEngine.cullOffScreenEntities`: destroy projectiles and particles
far outside the playfield margin, and enemies far below it; never the
player. -/
def engCull (st : EngState) : EngState :=
  { st with mgr := { st.mgr with entities := st.mgr.entities.map (fun p =>
      let e := p.2
      if e.etype = EntityType.player then p
      else if (decide (e.posX < -100) || decide (e.posX > st.canvasW + 100) ||
               decide (e.posY < -100) || decide (e.posY > st.canvasH + 100)) &&
              (decide (e.etype = EntityType.projectile) ||
               decide (e.etype = EntityType.particle) ||
               (decide (e.etype = EntityType.enemy) && decide (e.posY > st.canvasH + 100)))
      then (p.1, destroyE e) else p) } }

/-- `GameEngine.spawnPowerUpFromBarrel`: construct a `PowerUp` of the
barrel's pre-assigned kind at the barrel's position (size 24×24, slow
downward drift `(0, 20)`), stage it via `addEntity`, and log the spawn. -/
def engSpawnPUFromBarrel (b : Ent) (st : EngState) : EngState :=
  let pu : Ent :=
    { id := st.nextId, etype := EntityType.powerup,
      posX := b.posX, posY := b.posY, velX := 0, velY := 20,
      sizeX := 24, sizeY := 24, health := 1, maxHealth := 1, active := true,
      canvasW := st.canvasW, canvasH := st.canvasH,
      lifeTime := 0, puKind := b.puKind }
  { st with mgr := emAddEntity pu st.mgr,
            spawnedPU := st.spawnedPU ++ [(b.puKind, b.posX, b.posY)],
            nextId := st.nextId + 1 }

/-- The bottom-crossing branch's `this.player.takeDamage(1)` (guarded by
the player being present and active), together with its observation log. -/
def engDamagePlayerFromBottom (st : EngState) : EngState :=
  match st.playerId with
  | some pid =>
      match mapGet st.mgr.entities pid with
      | some p =>
          if p.active then
            { st with
              mgr := { st.mgr with entities := mapSet st.mgr.entities pid (takeDamageE 1 p) },
              playerDamageEvents := st.playerDamageEvents + 1 }
          else st
      | none => st
  | none => st

/-- `GameEngine.applyPowerUp`: route the collected pickup's config through
`PowerUpManager.addPowerUp` and award the 50-point collection bonus via
`addScore` (which also increments the kill counter). -/
def engApplyPowerUp (pu : Ent) (st : EngState) : EngState :=
  let st1 := engSetPUM (pumAdd (configOf pu.puKind) (engPUM st)) st
  { st1 with score := st1.score + 50, enemiesKilled := st1.enemiesKilled + 1 }

/-- `GameEngine.handlePowerUpCollection`: with a live player, walk the
power-up query snapshot and collect every pickup whose distance to the
player position (read once, before the loop) is below 30
(`distance < 30 ↔ squared distance < 900`, both sides being nonnegative). -/
def engCollect (st : EngState) : EngState :=
  match st.playerId with
  | some pid =>
      match mapGet st.mgr.entities pid with
      | some p =>
          if p.active then
            let ppos := (p.posX, p.posY)
            (emGetByType EntityType.powerup st.mgr).foldl
              (fun acc pu =>
                if (ppos.1 - pu.posX) ^ 2 + (ppos.2 - pu.posY) ^ 2 < 900 then
                  let acc1 := engApplyPowerUp pu acc
                  match mapGet acc1.mgr.entities pu.id with
                  | some cur =>
                      { acc1 with mgr := { acc1.mgr with
                          entities := mapSet acc1.mgr.entities pu.id (destroyE cur) } }
                  | none => acc1
                else acc) st
          else st
      | none => st
  | none => st

/-- `GameEngine.handleEntityDestruction`: (1) walk the all-entities
snapshot and, for every inactive entity, award enemy points via `addScore`
or spawn the barrel's power-up; (2) walk the enemy-query snapshot and apply
one point of contact damage to the live player for every enemy with
`posY > canvasHeight + 50`; (3) run power-up collection. -/
def engHandleDestruction (st : EngState) : EngState :=
  let st1 := (emGetAll st.mgr).foldl
    (fun acc e =>
      if e.active then acc
      else
        match e.etype with
        | EntityType.enemy =>
            { acc with score := acc.score + e.points, enemiesKilled := acc.enemiesKilled + 1 }
        | EntityType.barrel => engSpawnPUFromBarrel e acc
        | _ => acc) st
  let st2 := (emGetByType EntityType.enemy st1.mgr).foldl
    (fun acc e =>
      if e.posY > acc.canvasH + 50 then engDamagePlayerFromBottom acc else acc) st1
  engCollect st2

/-- One frame of the modeled `playing`-state pipeline, in source order. -/
def engineFrame (inp : InputState) (dt : ℚ) (st : EngState) : EngState :=
  let a := engAutoShoot st
  let b : EngState := { a with mgr := emUpdate inp dt a.mgr }
  let c := engSetPUM (pumUpdate dt (engPUM b)) b
  let d := engCull c
  let e : EngState := { d with mgr := { d.mgr with
    entities := collisionPass (physMove dt d.mgr.entities) } }
  engHandleDestruction e

/-- Iterate the modeled frame `n` times with fixed input and time step. -/
def engRun (inp : InputState) (dt : ℚ) (st : EngState) : ℕ → EngState
  | 0 => st
  | n + 1 => engineFrame inp dt (engRun inp dt st n)

/-!
## LevelManager
-/

/-- `LevelConfig` from `GameTypes`. -/
structure LevelConfig where
  levelNumber : ℕ
  enemySpawnRate : ℚ
  enemySpeedMultiplier : ℚ
  enemyHealthMultiplier : ℚ
  specialEnemyChance : ℚ
deriving DecidableEq, Repr

/-- `LevelManager.initializeLevelConfigs`: the tuned table for levels 1–10. -/
def levelTable : ℕ → Option LevelConfig
  | 1 => some ⟨1, 4/5, 1, 1, 0⟩
  | 2 => some ⟨2, 1, 11/10, 1, 1/5⟩
  | 3 => some ⟨3, 6/5, 6/5, 6/5, 3/10⟩
  | 4 => some ⟨4, 7/5, 13/10, 13/10, 2/5⟩
  | 5 => some ⟨5, 8/5, 7/5, 3/2, 1/2⟩
  | 6 => some ⟨6, 9/5, 3/2, 17/10, 3/5⟩
  | 7 => some ⟨7, 2, 8/5, 2, 7/10⟩
  | 8 => some ⟨8, 11/5, 17/10, 11/5, 4/5⟩
  | 9 => some ⟨9, 5/2, 9/5, 5/2, 9/10⟩
  | 10 => some ⟨10, 3, 2, 3, 1⟩
  | _ => none

/-- `LevelManager.generateDynamicLevelConfig` (reached only for levels
beyond the table, so the `level - 10` exponent is a plain natural): spawn
rate grows linearly capped at 8/s, speed and health multipliers grow
geometrically by `1.1^(level-10)` capped at 4× and 10×, special-enemy
chance saturates at 1. -/
def generateDynamicLevelConfig (level : ℕ) : LevelConfig :=
  let base : ℚ := (11/10) ^ (level - 10)
  { levelNumber := level
    enemySpawnRate := min (3 + (level - 10 : ℕ) * (1/5)) 8
    enemySpeedMultiplier := min (2 * base) 4
    enemyHealthMultiplier := min (3 * base) 10
    specialEnemyChance := 1 }

/-- `LevelManager.getLevelConfig(level)`.  In JS `level || currentLevel`
falls back to the current level when the argument is `0` (falsy) or
omitted. -/
def getLevelConfig (current level : ℕ) : LevelConfig :=
  let target := if level = 0 then current else level
  match levelTable target with
  | some cfg => cfg
  | none => generateDynamicLevelConfig target

/-- `LevelManager.shouldAdvanceLevel`. -/
def shouldAdvanceLevel (current : ℕ) (timeElapsed : ℚ) (enemiesKilled : ℕ) : Bool :=
  decide (timeElapsed ≥ 30) || decide (enemiesKilled ≥ 10 + current * 5)

/-!
## Shooting cadence and the multi-shot fan

`Player.canShoot` is `lastShotTime >= fireRate`; `Player.shoot()` resets
`lastShotTime` to 0; each frame's `Player.update` adds `dt` to it.  The
engine polls `handleAutoShooting` BEFORE `entityManager.update`, so a frame
first fires (if ready) and then accumulates its `dt`.
-/

/-- The shot-cadence fragment of the player state. -/
structure ShotState where
  lastShotTime : ℚ := 0
  fireRate : ℚ := 3/10
deriving DecidableEq, Repr

/-- One frame of the shooting loop: fire if the cooldown has elapsed
(resetting the timer), then accumulate the frame's `dt`.  Returns the new
state and whether a shot was produced. -/
def shotFrame (dt : ℚ) (p : ShotState) : ShotState × Bool :=
  let fired := decide (p.lastShotTime ≥ p.fireRate)
  let p1 := if fired then { p with lastShotTime := 0 } else p
  ({ p1 with lastShotTime := p1.lastShotTime + dt }, fired)

/-- Run the shooting loop over a list of frame time steps, counting shots. -/
def runShots (p : ShotState) : List ℚ → ShotState × ℕ
  | [] => (p, 0)
  | dt :: dts =>
      let r := shotFrame dt p
      let rest := runShots r.1 dts
      (rest.1, (if r.2 then 1 else 0) + rest.2)

/-- The projectile directions produced by the multi-shot branch of
`GameEngine.createPlayerProjectile`: `count` directions
`(sin θᵢ, -cos θᵢ)` with `θᵢ = -spread/2 + i * spread/(count-1)` and
`spread = π/6`. -/
noncomputable def multiShotAngle (count i : ℕ) : ℝ :=
  let spreadAngle : ℝ := Real.pi / 6
  let angleStep : ℝ := spreadAngle / ((count : ℝ) - 1)
  let startAngle : ℝ := -spreadAngle / 2
  startAngle + angleStep * (i : ℝ)

/-- The list of multi-shot direction vectors. -/
noncomputable def multiShotDirections (count : ℕ) : List (ℝ × ℝ) :=
  (List.range count).map
    (fun i => (Real.sin (multiShotAngle count i), -Real.cos (multiShotAngle count i)))

/-!
## Concrete sample states

Reachable-shaped states used as concrete inputs by the theorems below.
-/

/-- No movement keys held (the game's autonomous baseline). -/
def noInput : InputState := {}

/-- A freshly constructed `Player` at the default spawn of an 800×600
canvas: centre `(400, 550)`, size 40×40, 3 health. -/
def samplePlayer : Ent :=
  { id := 1, etype := EntityType.player, posX := 400, posY := 550,
    sizeX := 40, sizeY := 40, health := 3, maxHealth := 3 }

/-- A freshly constructed `Barrel` (size 30×30, 1 health, falling at 60/s)
whose pre-assigned drop is a shield. -/
def sampleBarrel : Ent :=
  { id := 5, etype := EntityType.barrel, posX := 100, posY := 300,
    velY := 60, sizeX := 30, sizeY := 30, health := 1, maxHealth := 1,
    puKind := PowerUpType.shield }

/-- A player-owned `Projectile` overlapping `sampleBarrel`. -/
def sampleProjectile : Ent :=
  { id := 6, etype := EntityType.projectile, posX := 100, posY := 300,
    velY := -500, sizeX := 6, sizeY := 12, health := 1, maxHealth := 1,
    damage := 1, ownerIsPlayer := true }

/-- A `PowerUpManager` with a player attached and no active effects. -/
def pumS0 : PUM := { effects := fun _ => none, player := some samplePlayer }

/-- A rapid-fire effect mid-flight (2 s remaining of the 8 s duration),
over a player whose fire rate it has already halved. -/
def pumRF : PUM :=
  { effects := fun t =>
      if t = PowerUpType.rapidFire then
        some ⟨PowerUpType.rapidFire, 8, 1/2, true, 2⟩
      else none
    player := some { samplePlayer with fireRate := 3/20 } }

/-- An `EntityManager` state one frame after `sampleBarrel` was promoted
into the live set, at the moment a collision has just destroyed it (the
object is mutated in place; the staging buffers are empty because the
barrel was active during this frame's update pass). -/
def c1exState : EMState :=
  { entities := [(5, destroyE sampleBarrel)]
    toAdd := []
    toRemove := []
    byType := fun t => if t = EntityType.barrel then [5] else [] }

/-- A barrel one frame from crossing the barrel bottom boundary of a
600-high canvas (`670 - 15 > 650`), carrying a multi-shot drop. -/
def c2Barrel : Ent :=
  { id := 7, etype := EntityType.barrel, posX := 100, posY := 670,
    velY := 60, sizeX := 30, sizeY := 30, health := 1, maxHealth := 1,
    puKind := PowerUpType.multiShot }

/-- Engine state for the barrel-destruction run: the live player and the
about-to-expire barrel. -/
def c2Init : EngState :=
  { mgr :=
      { entities := [(1, samplePlayer), (7, c2Barrel)]
        byType := fun t =>
          if t = EntityType.player then [1]
          else if t = EntityType.barrel then [7] else [] }
    playerId := some 1 }

/-- A fresh basic `Enemy` (size 35×35, health `ceil(2·1) = 2`, speed 80,
10 points) just above the enemy bottom boundary of a 600-high canvas. -/
def c7Enemy : Ent :=
  { id := 9, etype := EntityType.enemy, posX := 100, posY := 616,
    velY := 80, sizeX := 35, sizeY := 35, health := 2, maxHealth := 2,
    points := 10, speed := 80, attackDamage := 1 }

/-- Engine state for the bottom-crossing run: the live player and the
enemy about to cross the bottom. -/
def c7Init : EngState :=
  { mgr :=
      { entities := [(1, samplePlayer), (9, c7Enemy)]
        byType := fun t =>
          if t = EntityType.player then [1]
          else if t = EntityType.enemy then [9] else [] }
    playerId := some 1 }

/-- Key/kind coherence of a `PowerUpManager` state: every stored effect
carries the kind it is keyed under (true of every state the manager
builds, since `addPowerUp` stores the effect under `config.type`). -/
def pumCoherent (s : PUM) : Prop :=
  ∀ t e, s.effects t = some e → e.ptype = t

/-!
## Helper lemmas
-/

theorem destroyE_active (e : Ent) : (destroyE e).active = false := rfl

theorem takeDamageBase_active_mono (d : ℚ) (e : Ent) (h : e.active = false) :
    (takeDamageBase d e).active = false := by
  unfold takeDamageBase; split_ifs <;> simp [h]

theorem takeDamageE_active_mono (d : ℚ) (e : Ent) (h : e.active = false) :
    (takeDamageE d e).active = false := by
  unfold takeDamageE; split_ifs with h1
  · exact h
  · exact takeDamageBase_active_mono d e h

theorem healE_active (a : ℚ) (e : Ent) : (healE a e).active = e.active := rfl

theorem playerUpdate_active (inp : InputState) (dt : ℚ) (e : Ent) :
    (playerUpdate inp dt e).active = e.active := rfl

theorem enemyUpdateBasic_active_mono (dt : ℚ) (e : Ent) (h : e.active = false) :
    (enemyUpdateBasic dt e).active = false := by
  simp [enemyUpdateBasic, destroyE, apply_ite Ent.active, h]

theorem barrelUpdate_active_mono (e : Ent) (h : e.active = false) :
    (barrelUpdate e).active = false := by
  simp [barrelUpdate, destroyE, apply_ite Ent.active, h]

theorem powerUpUpdate_active_mono (dt : ℚ) (e : Ent) (h : e.active = false) :
    (powerUpUpdate dt e).active = false := by
  simp [powerUpUpdate, destroyE, apply_ite Ent.active, h]

theorem projectileUpdate_active_mono (dt : ℚ) (e : Ent) (h : e.active = false) :
    (projectileUpdate dt e).active = false := by
  simp [projectileUpdate, destroyE, apply_ite Ent.active, h]

theorem particleUpdate_active_mono (dt : ℚ) (e : Ent) (h : e.active = false) :
    (particleUpdate dt e).active = false := by
  simp [particleUpdate, destroyE, apply_ite Ent.active, h]

theorem entUpdate_active_mono (inp : InputState) (dt : ℚ) (e : Ent)
    (h : e.active = false) : (entUpdate inp dt e).active = false := by
  unfold entUpdate
  cases he : e.etype
  · rw [playerUpdate_active]; exact h
  · exact enemyUpdateBasic_active_mono dt e h
  · exact projectileUpdate_active_mono dt e h
  · exact powerUpUpdate_active_mono dt e h
  · exact barrelUpdate_active_mono e h
  · exact particleUpdate_active_mono dt e h

theorem onCollisionE_fst_active_mono (a b : Ent) (h : a.active = false) :
    ((onCollisionE a b).1).active = false := by
  unfold onCollisionE
  cases ha : a.etype <;> cases hb : b.etype <;>
    first
      | exact h
      | exact takeDamageE_active_mono 1 a h
      | exact destroyE_active a
      | (split_ifs <;> first | exact h | exact destroyE_active a)

theorem onCollisionE_snd_active_mono (a b : Ent) (h : b.active = false) :
    ((onCollisionE a b).2).active = false := by
  unfold onCollisionE
  cases ha : a.etype <;> cases hb : b.etype <;>
    first
      | exact h
      | exact takeDamageE_active_mono _ b h
      | (split_ifs <;> first | exact h | exact takeDamageE_active_mono _ b h)

theorem pumRevertPlayer_health (t : PowerUpType) (p : Ent) :
    (pumRevertPlayer t p).health = p.health := by
  cases t <;> rfl

theorem pumRevertPlayer_fireRate (t : PowerUpType) (p : Ent)
    (h : t ≠ PowerUpType.rapidFire) : (pumRevertPlayer t p).fireRate = p.fireRate := by
  cases t <;> first | (exact absurd rfl h) | rfl

theorem pumRemove_effects_ne (t t' : PowerUpType) (s : PUM) (h : t ≠ t') :
    (pumRemove t' s).effects t = s.effects t := by
  cases he : s.effects t' <;> cases hp : s.player <;>
    simp only [pumRemove, he, hp] <;> simp [h]

theorem pumRemove_playerHP (t : PowerUpType) (s : PUM) :
    ((pumRemove t s).player).map Ent.health = (s.player).map Ent.health := by
  cases he : s.effects t <;> cases hp : s.player <;>
    simp only [pumRemove, he, hp] <;> simp [pumRevertPlayer_health]

theorem pumRemove_playerFR_ne (t : PowerUpType) (s : PUM)
    (h : t ≠ PowerUpType.rapidFire) :
    ((pumRemove t s).player).map Ent.fireRate = (s.player).map Ent.fireRate := by
  cases he : s.effects t <;> cases hp : s.player <;>
    simp only [pumRemove, he, hp] <;> simp [pumRevertPlayer_fireRate _ _ h]

theorem pumTick_effects_ne (dt : ℚ) (t t' : PowerUpType) (s : PUM) (h : t ≠ t') :
    (pumTick dt t' s).effects t = s.effects t := by
  cases he : s.effects t' with
  | none => simp only [pumTick, he]
  | some eff =>
      simp only [pumTick, he]
      split_ifs with h1 h2
      · rw [pumRemove_effects_ne t t' _ h]; simp [h]
      · simp [h]
      · rfl

theorem pumTick_effects_self_nonpos (dt : ℚ) (t : PowerUpType) (s : PUM)
    (e : PowerUpEffect) (he : s.effects t = some e) (hd : e.duration ≤ 0) :
    pumTick dt t s = s := by
  simp only [pumTick, he]
  rw [if_neg (not_lt.mpr hd)]

theorem pumTick_playerHP (dt : ℚ) (t : PowerUpType) (s : PUM) :
    ((pumTick dt t s).player).map Ent.health = (s.player).map Ent.health := by
  cases he : s.effects t with
  | none => simp only [pumTick, he]
  | some eff =>
      simp only [pumTick, he]
      split_ifs with h1 h2
      · rw [pumRemove_playerHP]
      · rfl
      · rfl

theorem pumTick_playerFR_ne (dt : ℚ) (t : PowerUpType) (s : PUM)
    (h : t ≠ PowerUpType.rapidFire) :
    ((pumTick dt t s).player).map Ent.fireRate = (s.player).map Ent.fireRate := by
  cases he : s.effects t with
  | none => simp only [pumTick, he]
  | some eff =>
      simp only [pumTick, he]
      split_ifs with h1 h2
      · rw [pumRemove_playerFR_ne _ _ h]
      · rfl
      · rfl

theorem pumTicks_preserve_nonpos (dt : ℚ) (l : List PowerUpType) (t : PowerUpType)
    (e : PowerUpEffect) (hd : e.duration ≤ 0) :
    ∀ s : PUM, s.effects t = some e →
      (l.foldl (fun acc k => pumTick dt k acc) s).effects t = some e := by
  induction l with
  | nil => intro s hs; exact hs
  | cons k ks ih =>
      intro s hs
      simp only [List.foldl_cons]
      by_cases hk : t = k
      · subst hk
        rw [pumTick_effects_self_nonpos dt t s e hs hd]
        exact ih s hs
      · exact ih _ ((pumTick_effects_ne dt t k s hk).trans hs)

theorem pumTicks_playerHP (dt : ℚ) (l : List PowerUpType) :
    ∀ s : PUM, ((l.foldl (fun acc k => pumTick dt k acc) s).player).map Ent.health =
      (s.player).map Ent.health := by
  induction l with
  | nil => intro s; rfl
  | cons k ks ih =>
      intro s
      simp only [List.foldl_cons]
      rw [ih, pumTick_playerHP]

theorem pumTicks_playerFR (dt : ℚ) (l : List PowerUpType)
    (hl : PowerUpType.rapidFire ∉ l) :
    ∀ s : PUM, ((l.foldl (fun acc k => pumTick dt k acc) s).player).map Ent.fireRate =
      (s.player).map Ent.fireRate := by
  induction l with
  | nil => intro s; rfl
  | cons k ks ih =>
      intro s
      simp only [List.foldl_cons]
      rw [ih (fun hm => hl (List.mem_cons_of_mem k hm)),
        pumTick_playerFR_ne dt k s (fun hk => hl (hk ▸ List.mem_cons_self k ks))]

theorem pumTicks_effects_ne (dt : ℚ) (l : List PowerUpType) (t : PowerUpType)
    (hl : t ∉ l) :
    ∀ s : PUM, (l.foldl (fun acc k => pumTick dt k acc) s).effects t = s.effects t := by
  induction l with
  | nil => intro s; rfl
  | cons k ks ih =>
      intro s
      simp only [List.foldl_cons]
      rw [ih (fun hm => hl (List.mem_cons_of_mem k hm)),
        pumTick_effects_ne dt t k s (fun hk => hl (hk ▸ List.mem_cons_self k ks))]

theorem pumRemoves_playerFR (dt : ℚ) (l : List PowerUpType)
    (hl : PowerUpType.rapidFire ∉ l) :
    ∀ s : PUM, ((l.foldl (fun acc k => pumRemove k acc) s).player).map Ent.fireRate =
      (s.player).map Ent.fireRate := by
  induction l with
  | nil => intro s; rfl
  | cons k ks ih =>
      intro s
      simp only [List.foldl_cons]
      rw [ih (fun hm => hl (List.mem_cons_of_mem k hm)),
        pumRemove_playerFR_ne k s (fun hk => hl (hk ▸ List.mem_cons_self k ks))]

theorem pumRemove_coherent (t : PowerUpType) (s : PUM) (hc : pumCoherent s) :
    pumCoherent (pumRemove t s) := by
  cases he : s.effects t <;> cases hp : s.player <;> simp only [pumRemove, he, hp] <;>
    first
      | exact hc
      | (intro t' e' h'
         by_cases ht : t' = t
         · subst ht; simp at h'
         · simp [ht] at h'; exact hc t' e' h')

theorem pumAdd_coherent (cfg : PowerUpConfig) (s : PUM) (hc : pumCoherent s) :
    pumCoherent (pumAdd cfg s) := by
  have hc1 : pumCoherent (if (s.effects cfg.ptype).isSome then pumRemove cfg.ptype s else s) := by
    split_ifs with h
    · exact pumRemove_coherent cfg.ptype s hc
    · exact hc
  intro t' e' h'
  by_cases ht : t' = cfg.ptype
  · subst ht
    simp only [pumAdd, if_pos rfl] at h'
    cases h'
    rfl
  · simp only [pumAdd, if_neg ht] at h'
    exact hc1 t' e' h'

theorem pumTick_coherent (dt : ℚ) (t : PowerUpType) (s : PUM) (hc : pumCoherent s) :
    pumCoherent (pumTick dt t s) := by
  cases he : s.effects t with
  | none => simp only [pumTick, he]; exact hc
  | some eff =>
      simp only [pumTick, he]
      have hmid : pumCoherent
          { s with effects := fun t' =>
              if t' = t then some { eff with timeRemaining := eff.timeRemaining - dt }
              else s.effects t' } := by
        intro t' e' h'
        by_cases ht : t' = t
        · subst ht
          simp only [if_pos rfl] at h'
          cases h'
          exact hc _ eff he
        · simp only [if_neg ht] at h'
          exact hc t' e' h'
      split_ifs with h1 h2
      · exact pumRemove_coherent t _ hmid
      · exact hmid
      · exact hc

theorem pumTicks_coherent (dt : ℚ) (l : List PowerUpType) :
    ∀ s : PUM, pumCoherent s →
      pumCoherent (l.foldl (fun acc k => pumTick dt k acc) s) := by
  induction l with
  | nil => intro s hc; exact hc
  | cons k ks ih =>
      intro s hc
      simp only [List.foldl_cons]
      exact ih _ (pumTick_coherent dt k s hc)

theorem pumRemoves_coherent (l : List PowerUpType) :
    ∀ s : PUM, pumCoherent s →
      pumCoherent (l.foldl (fun acc k => pumRemove k acc) s) := by
  induction l with
  | nil => intro s hc; exact hc
  | cons k ks ih =>
      intro s hc
      simp only [List.foldl_cons]
      exact ih _ (pumRemove_coherent k s hc)

theorem filterMap_coherent_filter_nil (f : PowerUpType → Option PowerUpEffect)
    (hc : ∀ t e, f t = some e → e.ptype = t) (t : PowerUpType) :
    ∀ l : List PowerUpType, t ∉ l →
      ((l.filterMap f).filter (fun e => e.ptype = t)).length = 0 := by
  intro l
  induction l with
  | nil => intro _; rfl
  | cons k ks ih =>
      intro hl
      rw [List.filterMap_cons]
      cases hk : f k with
      | none => exact ih (fun hm => hl (List.mem_cons_of_mem k hm))
      | some e =>
          rw [List.filter_cons]
          have hne : ¬ (e.ptype = t) := by
            rw [hc k e hk]
            exact fun h => hl (h ▸ List.mem_cons_self k ks)
          rw [if_neg (by simp [hne])]
          exact ih (fun hm => hl (List.mem_cons_of_mem k hm))

theorem filterMap_coherent_filter_le_one (f : PowerUpType → Option PowerUpEffect)
    (hc : ∀ t e, f t = some e → e.ptype = t) (t : PowerUpType) :
    ∀ l : List PowerUpType, l.Nodup →
      ((l.filterMap f).filter (fun e => e.ptype = t)).length ≤ 1 := by
  intro l
  induction l with
  | nil => intro _; simp
  | cons k ks ih =>
      intro hl
      rw [List.filterMap_cons]
      cases hk : f k with
      | none => exact ih (List.Nodup.of_cons hl)
      | some e =>
          rw [List.filter_cons]
          by_cases ht : e.ptype = t
          · have hkt : k = t := (hc k e hk) ▸ ht
            have hts : t ∉ ks := hkt ▸ (List.nodup_cons.mp hl).1
            rw [if_pos (by simp [ht]), List.length_cons,
              filterMap_coherent_filter_nil f hc t ks hts]
          · rw [if_neg (by simp [ht])]
            exact ih (List.Nodup.of_cons hl)

theorem mapGet_cons_self (a : ℕ × Ent) (l : List (ℕ × Ent)) (k : ℕ) (ha : a.1 = k) :
    mapGet (a :: l) k = some a.2 := by
  unfold mapGet
  rw [List.find?_cons_of_pos _ (by simp [ha])]
  rfl

theorem mapGet_cons_ne (a : ℕ × Ent) (l : List (ℕ × Ent)) (k : ℕ) (ha : a.1 ≠ k) :
    mapGet (a :: l) k = mapGet l k := by
  unfold mapGet
  rw [List.find?_cons_of_neg _ (by simp [ha])]

theorem mapSet_cons_ne (a : ℕ × Ent) (as : List (ℕ × Ent)) (k : ℕ) (v : Ent)
    (ha : a.1 ≠ k) : mapSet (a :: as) k v = a :: mapSet as k v := by
  by_cases hs : as.any (fun p => p.1 = k)
  · simp [mapSet, List.any_cons, ha, hs]
  · simp [mapSet, List.any_cons, ha, hs]

theorem mapGet_mapSet_self (m : List (ℕ × Ent)) (k : ℕ) (v : Ent) :
    mapGet (mapSet m k v) k = some v := by
  induction m with
  | nil => simp [mapSet, mapGet]
  | cons a as ih =>
      by_cases ha : a.1 = k
      · have hany : (a :: as).any (fun p => p.1 = k) = true := by
          simp [List.any_cons, ha]
        rw [mapSet, if_pos hany, List.map_cons, if_pos ha,
          mapGet_cons_self _ _ _ rfl]
      · rw [mapSet_cons_ne a as k v ha, mapGet_cons_ne _ _ _ ha]
        exact ih

theorem mapGet_map_setfun_ne (k j : ℕ) (v : Ent) (h : j ≠ k) :
    ∀ m : List (ℕ × Ent),
      mapGet (m.map (fun p => if p.1 = k then (k, v) else p)) j = mapGet m j := by
  intro m
  induction m with
  | nil => rfl
  | cons a as ih =>
      rw [List.map_cons]
      by_cases ha : a.1 = k
      · rw [if_pos ha, mapGet_cons_ne (k, v) _ j (fun hh => h hh.symm),
          mapGet_cons_ne a as j (fun hh => h (ha ▸ hh).symm)]
        exact ih
      · rw [if_neg ha]
        by_cases haj : a.1 = j
        · rw [mapGet_cons_self _ _ _ haj, mapGet_cons_self _ _ _ haj]
        · rw [mapGet_cons_ne _ _ _ haj, mapGet_cons_ne _ _ _ haj]
          exact ih

theorem mapGet_append_single_ne (m : List (ℕ × Ent)) (k : ℕ) (v : Ent) (j : ℕ)
    (h : j ≠ k) : mapGet (m ++ [(k, v)]) j = mapGet m j := by
  induction m with
  | nil =>
      rw [List.nil_append]
      exact mapGet_cons_ne (k, v) [] j (fun hh => h hh.symm)
  | cons a as ih =>
      rw [List.cons_append]
      by_cases haj : a.1 = j
      · rw [mapGet_cons_self _ _ _ haj, mapGet_cons_self _ _ _ haj]
      · rw [mapGet_cons_ne _ _ _ haj, mapGet_cons_ne _ _ _ haj]
        exact ih

theorem mapGet_mapSet_ne (m : List (ℕ × Ent)) (k j : ℕ) (v : Ent) (h : j ≠ k) :
    mapGet (mapSet m k v) j = mapGet m j := by
  unfold mapSet
  split_ifs with hany
  · exact mapGet_map_setfun_ne k j v h m
  · exact mapGet_append_single_ne m k v j h

theorem mapGet_mapDelete_self (m : List (ℕ × Ent)) (k : ℕ) :
    mapGet (mapDelete m k) k = none := by
  induction m with
  | nil => rfl
  | cons a as ih =>
      by_cases ha : a.1 = k
      · simpa [mapDelete, List.filter_cons, ha] using ih
      · rw [show mapDelete (a :: as) k = a :: mapDelete as k by
            simp [mapDelete, List.filter_cons, ha],
          mapGet_cons_ne _ _ _ ha]
        exact ih

theorem mapGet_mapDelete_ne (m : List (ℕ × Ent)) (k j : ℕ) (h : j ≠ k) :
    mapGet (mapDelete m k) j = mapGet m j := by
  induction m with
  | nil => rfl
  | cons a as ih =>
      by_cases ha : a.1 = k
      · rw [show mapDelete (a :: as) k = mapDelete as k by
            simp [mapDelete, List.filter_cons, ha],
          mapGet_cons_ne a as j (fun hh => h (ha ▸ hh).symm)]
        exact ih
      · rw [show mapDelete (a :: as) k = a :: mapDelete as k by
            simp [mapDelete, List.filter_cons, ha]]
        by_cases haj : a.1 = j
        · rw [mapGet_cons_self _ _ _ haj, mapGet_cons_self _ _ _ haj]
        · rw [mapGet_cons_ne _ _ _ haj, mapGet_cons_ne _ _ _ haj]
          exact ih

theorem mapGet_map_pairfun (f : Ent → Ent) (k : ℕ) :
    ∀ m : List (ℕ × Ent),
      mapGet (m.map (fun p => (p.1, f p.2))) k = (mapGet m k).map f := by
  intro m
  induction m with
  | nil => rfl
  | cons a as ih =>
      rw [List.map_cons]
      by_cases ha : a.1 = k
      · rw [mapGet_cons_self (a.1, f a.2) _ k ha, mapGet_cons_self a as k ha]
        rfl
      · rw [mapGet_cons_ne (a.1, f a.2) _ k ha, mapGet_cons_ne a as k ha]
        exact ih

theorem emWalk_as_pairfun (inp : InputState) (dt : ℚ) :
    emWalkEnt inp dt =
      fun p => (p.1, (fun e => if e.active then entUpdate inp dt e else e) p.2) := by
  funext p
  by_cases h : p.2.active <;> simp [emWalkEnt, h]

theorem mem_setAdd_iff (x y : ℕ) (l : List ℕ) :
    x ∈ setAdd l y ↔ x ∈ l ∨ x = y := by
  unfold setAdd
  split_ifs with h
  · exact ⟨Or.inl, fun hx => hx.elim id (fun hxy => hxy ▸ h)⟩
  · simp [List.mem_append]

theorem mem_setDel_iff (x y : ℕ) (l : List ℕ) :
    x ∈ setDel l y ↔ x ∈ l ∧ x ≠ y := by
  simp [setDel, List.mem_filter]

theorem emAddStep_entities (acc : EMState) (x : Ent) :
    (emAddStep acc x).entities = mapSet acc.entities x.id x := rfl

theorem emAddStep_byType_mem (acc : EMState) (x : Ent) (id : ℕ) (t : EntityType) :
    id ∈ (emAddStep acc x).byType t ↔
      id ∈ acc.byType t ∨ (t = x.etype ∧ id = x.id) := by
  show id ∈ bumpByType acc.byType x.etype (fun l => setAdd l x.id) t ↔ _
  unfold bumpByType
  by_cases ht : t = x.etype
  · rw [if_pos ht, mem_setAdd_iff, ht]
    simp
  · rw [if_neg ht]
    simp [ht]

theorem addFold_mapGet_ne (id : ℕ) :
    ∀ (l : List Ent) (s : EMState), (∀ x ∈ l, x.id ≠ id) →
      mapGet ((l.foldl emAddStep s).entities) id = mapGet s.entities id := by
  intro l
  induction l with
  | nil => intro s _; rfl
  | cons a as ih =>
      intro s h
      rw [List.foldl_cons, ih (emAddStep s a) (fun x hx => h x (List.mem_cons_of_mem a hx)),
        emAddStep_entities,
        mapGet_mapSet_ne _ _ _ _ (fun hh => h a (List.mem_cons_self a as) hh.symm)]

theorem addFold_isSome_mono (id : ℕ) :
    ∀ (l : List Ent) (s : EMState), (mapGet s.entities id).isSome = true →
      (mapGet ((l.foldl emAddStep s).entities) id).isSome = true := by
  intro l
  induction l with
  | nil => intro s h; exact h
  | cons a as ih =>
      intro s h
      rw [List.foldl_cons]
      refine ih (emAddStep s a) ?_
      rw [emAddStep_entities]
      by_cases ha : a.id = id
      · rw [ha, mapGet_mapSet_self]
        rfl
      · rw [mapGet_mapSet_ne _ _ _ _ (fun hh => ha hh.symm)]
        exact h

theorem addFold_isSome_of_mem :
    ∀ (l : List Ent) (e : Ent), e ∈ l → ∀ s : EMState,
      (mapGet ((l.foldl emAddStep s).entities) e.id).isSome = true := by
  intro l
  induction l with
  | nil => intro e he; exact absurd he (List.not_mem_nil e)
  | cons a as ih =>
      intro e he s
      rw [List.foldl_cons]
      rcases List.mem_cons.mp he with rfl | hmem
      · refine addFold_isSome_mono e.id as (emAddStep s e) ?_
        rw [emAddStep_entities, mapGet_mapSet_self]
        rfl
      · exact ih e hmem (emAddStep s a)

theorem addFold_byType_iff_ne (id : ℕ) (t : EntityType) :
    ∀ (l : List Ent) (s : EMState), (∀ x ∈ l, x.id ≠ id) →
      (id ∈ (l.foldl emAddStep s).byType t ↔ id ∈ s.byType t) := by
  intro l
  induction l with
  | nil => intro s _; exact Iff.rfl
  | cons a as ih =>
      intro s h
      rw [List.foldl_cons,
        ih (emAddStep s a) (fun x hx => h x (List.mem_cons_of_mem a hx)),
        emAddStep_byType_mem]
      have : ¬ (t = a.etype ∧ id = a.id) :=
        fun hh => h a (List.mem_cons_self a as) hh.2.symm
      simp [this]

theorem addFold_byType_mono (id : ℕ) (t : EntityType) :
    ∀ (l : List Ent) (s : EMState), id ∈ s.byType t →
      id ∈ (l.foldl emAddStep s).byType t := by
  intro l
  induction l with
  | nil => intro s h; exact h
  | cons a as ih =>
      intro s h
      rw [List.foldl_cons]
      exact ih (emAddStep s a) ((emAddStep_byType_mem s a id t).mpr (Or.inl h))

theorem addFold_byType_of_mem :
    ∀ (l : List Ent) (e : Ent), e ∈ l → ∀ s : EMState,
      e.id ∈ (l.foldl emAddStep s).byType e.etype := by
  intro l
  induction l with
  | nil => intro e he; exact absurd he (List.not_mem_nil e)
  | cons a as ih =>
      intro e he s
      rw [List.foldl_cons]
      rcases List.mem_cons.mp he with rfl | hmem
      · exact addFold_byType_mono e.id e.etype as (emAddStep s e)
          ((emAddStep_byType_mem s e e.id e.etype).mpr (Or.inr ⟨rfl, rfl⟩))
      · exact ih e hmem (emAddStep s a)

theorem emRemoveStep_entities_get_ne (acc : EMState) (a id : ℕ) (h : a ≠ id) :
    mapGet ((emRemoveStep acc a).entities) id = mapGet acc.entities id := by
  cases hm : mapGet acc.entities a <;>
    simp only [emRemoveStep, hm] <;>
    exact mapGet_mapDelete_ne _ _ _ (fun hh => h hh.symm)

theorem emRemoveStep_entities_get_self (acc : EMState) (a : ℕ) :
    mapGet ((emRemoveStep acc a).entities) a = none := by
  cases hm : mapGet acc.entities a <;>
    simp only [emRemoveStep, hm] <;>
    exact mapGet_mapDelete_self _ _

theorem emRemoveStep_byType_iff_ne (acc : EMState) (a id : ℕ) (h : a ≠ id)
    (t : EntityType) :
    (id ∈ (emRemoveStep acc a).byType t ↔ id ∈ acc.byType t) := by
  cases hm : mapGet acc.entities a with
  | none => simp only [emRemoveStep, hm]
  | some e =>
      simp only [emRemoveStep, hm]
      show id ∈ bumpByType acc.byType e.etype (fun l => setDel l a) t ↔ _
      unfold bumpByType
      by_cases ht : t = e.etype
      · rw [if_pos ht, mem_setDel_iff, ht]
        exact ⟨fun hx => hx.1, fun hx => ⟨hx, fun hh => h hh.symm⟩⟩
      · rw [if_neg ht]

theorem emRemoveStep_byType_not_mem (acc : EMState) (a id : ℕ) (t : EntityType)
    (h : id ∉ acc.byType t) : id ∉ (emRemoveStep acc a).byType t := by
  cases hm : mapGet acc.entities a with
  | none => simpa only [emRemoveStep, hm] using h
  | some e =>
      simp only [emRemoveStep, hm]
      show id ∉ bumpByType acc.byType e.etype (fun l => setDel l a) t
      unfold bumpByType
      by_cases ht : t = e.etype
      · rw [if_pos ht]
        intro hmem
        exact h (ht ▸ (mem_setDel_iff id a _).mp hmem |>.1)
      · rw [if_neg ht]
        exact h

theorem removeFold_mapGet_ne (id : ℕ) :
    ∀ (l : List ℕ) (s : EMState), id ∉ l →
      mapGet ((l.foldl emRemoveStep s).entities) id = mapGet s.entities id := by
  intro l
  induction l with
  | nil => intro s _; rfl
  | cons a as ih =>
      intro s h
      rw [List.foldl_cons,
        ih (emRemoveStep s a) (fun hm => h (List.mem_cons_of_mem a hm)),
        emRemoveStep_entities_get_ne s a id
          (fun hh => h (hh ▸ List.mem_cons_self a as))]

theorem removeFold_byType_iff_ne (id : ℕ) (t : EntityType) :
    ∀ (l : List ℕ) (s : EMState), id ∉ l →
      (id ∈ (l.foldl emRemoveStep s).byType t ↔ id ∈ s.byType t) := by
  intro l
  induction l with
  | nil => intro s _; exact Iff.rfl
  | cons a as ih =>
      intro s h
      rw [List.foldl_cons,
        ih (emRemoveStep s a) (fun hm => h (List.mem_cons_of_mem a hm)),
        emRemoveStep_byType_iff_ne s a id
          (fun hh => h (hh ▸ List.mem_cons_self a as)) t]

theorem removeFold_mapGet_none_mono (id : ℕ) :
    ∀ (l : List ℕ) (s : EMState), mapGet s.entities id = none →
      mapGet ((l.foldl emRemoveStep s).entities) id = none := by
  intro l
  induction l with
  | nil => intro s h; exact h
  | cons a as ih =>
      intro s h
      rw [List.foldl_cons]
      refine ih (emRemoveStep s a) ?_
      by_cases ha : a = id
      · exact ha ▸ emRemoveStep_entities_get_self s a
      · rw [emRemoveStep_entities_get_ne s a id ha]
        exact h

theorem removeFold_mapGet_none_of_mem (id : ℕ) :
    ∀ (l : List ℕ) (s : EMState), id ∈ l →
      mapGet ((l.foldl emRemoveStep s).entities) id = none := by
  intro l
  induction l with
  | nil => intro s h; exact absurd h (List.not_mem_nil id)
  | cons a as ih =>
      intro s h
      rw [List.foldl_cons]
      by_cases ha : a = id
      · exact removeFold_mapGet_none_mono id as (emRemoveStep s a)
          (ha ▸ emRemoveStep_entities_get_self s a)
      · exact ih (emRemoveStep s a)
          ((List.mem_cons.mp h).resolve_left (fun hh => ha hh.symm))

theorem removeFold_byType_not_mem (id : ℕ) :
    ∀ (l : List ℕ) (s : EMState), (∀ t, id ∉ s.byType t) →
      ∀ t, id ∉ (l.foldl emRemoveStep s).byType t := by
  intro l
  induction l with
  | nil => intro s h; exact h
  | cons a as ih =>
      intro s h
      rw [List.foldl_cons]
      exact ih (emRemoveStep s a) (fun t => emRemoveStep_byType_not_mem s a id t (h t))

theorem removeFold_byType_clear (id : ℕ) (e0 : Ent) :
    ∀ (l : List ℕ) (s : EMState), id ∈ l → mapGet s.entities id = some e0 →
      (∀ t, id ∈ s.byType t → t = e0.etype) →
      ∀ t, id ∉ (l.foldl emRemoveStep s).byType t := by
  intro l
  induction l with
  | nil => intro s h; exact absurd h (List.not_mem_nil id)
  | cons a as ih =>
      intro s h hm h6
      rw [List.foldl_cons]
      by_cases ha : a = id
      · subst ha
        refine removeFold_byType_not_mem a as (emRemoveStep s a) (fun t => ?_)
        simp only [emRemoveStep, hm]
        show a ∉ bumpByType s.byType e0.etype (fun l => setDel l a) t
        unfold bumpByType
        by_cases ht : t = e0.etype
        · rw [if_pos ht]
          intro hmem
          exact ((mem_setDel_iff a a _).mp hmem).2 rfl
        · rw [if_neg ht]
          exact fun hmem => ht (h6 t hmem)
      · refine ih (emRemoveStep s a)
          ((List.mem_cons.mp h).resolve_left (fun hh => ha hh.symm)) ?_ ?_
        · rw [emRemoveStep_entities_get_ne s a id ha]
          exact hm
        · intro t hmem
          exact h6 t ((emRemoveStep_byType_iff_ne s a id ha t).mp hmem)

theorem emUpdate_toAdd (inp : InputState) (dt : ℚ) (s : EMState) :
    (emUpdate inp dt s).toAdd = [] := rfl

theorem emUpdate_entities (inp : InputState) (dt : ℚ) (s : EMState) :
    (emUpdate inp dt s).entities =
      ((s.toRemove.foldl emRemoveStep (s.toAdd.foldl emAddStep s)).entities).map
        (emWalkEnt inp dt) := rfl

theorem emUpdate_byType (inp : InputState) (dt : ℚ) (s : EMState) :
    (emUpdate inp dt s).byType =
      (s.toRemove.foldl emRemoveStep (s.toAdd.foldl emAddStep s)).byType := rfl

theorem emUpdate_toRemove (inp : InputState) (dt : ℚ) (s : EMState) :
    (emUpdate inp dt s).toRemove =
      (((s.toRemove.foldl emRemoveStep (s.toAdd.foldl emAddStep s)).entities).filter
        (fun p => ¬ p.2.active)).map (fun p => p.1) := rfl

theorem emUpdate_mapGet (inp : InputState) (dt : ℚ) (s : EMState) (id : ℕ) :
    mapGet (emUpdate inp dt s).entities id =
      (mapGet (s.toRemove.foldl emRemoveStep (s.toAdd.foldl emAddStep s)).entities id).map
        (fun e => if e.active then entUpdate inp dt e else e) := by
  rw [emUpdate_entities, emWalk_as_pairfun]
  exact mapGet_map_pairfun (fun e => if e.active then entUpdate inp dt e else e) id _

theorem mem_emGetAll_of_mapGet (s : EMState) (id : ℕ) (e0 : Ent)
    (h : mapGet s.entities id = some e0) : e0 ∈ emGetAll s := by
  unfold mapGet at h
  rcases Option.map_eq_some'.mp h with ⟨pr, hfind, hsnd⟩
  exact hsnd ▸ List.mem_map_of_mem _ (List.mem_of_find?_eq_some hfind)

theorem mem_emGetByType_of (s : EMState) (t : EntityType) (id : ℕ) (e0 : Ent)
    (hm : mapGet s.entities id = some e0) (hb : id ∈ s.byType t) :
    e0 ∈ emGetByType t s :=
  List.mem_filterMap.mpr ⟨id, hb, hm⟩

theorem mapGet_some_mem_staged (m : List (ℕ × Ent)) (id : ℕ) (e0 : Ent)
    (h : mapGet m id = some e0) (hin : e0.active = false) :
    id ∈ (m.filter (fun p => ¬ p.2.active)).map (fun p => p.1) := by
  unfold mapGet at h
  rcases Option.map_eq_some'.mp h with ⟨pr, hfind, hsnd⟩
  have hp1 : pr.1 = id := by simpa using List.find?_some hfind
  have hmem : pr ∈ m := List.mem_of_find?_eq_some hfind
  refine hp1 ▸ List.mem_map_of_mem _ (List.mem_filter.mpr ⟨hmem, ?_⟩)
  simp [hsnd, hin]

/-!
## Claim theorems
-/

/-- Claim C1 (corrected).  The addition half holds as claimed: an entity
staged with `addEntity` is invisible to `getAllEntities` and to every
by-kind query until the next `update` call promotes it (after which it is
present in the live map and in its kind's index).  The deactivation half is
off by one frame: an entity deactivated during frame N (after frame N's
`update` pass, e.g. by a collision) remains fully queryable — present and
inactive — during frame N AND after frame N+1's `update` call (which only
stages its removal), and is gone from the live map and from every kind
index only after frame N+2's `update`, i.e. after TWO further update
calls, not one (see `c1_claim_counterexample`). -/
theorem c1_entity_lifecycle (s : EMState) (e e0 : Ent) (id : ℕ)
    (inp : InputState) (dt dt' : ℚ) :
    (emGetAll (emAddEntity e s) = emGetAll s) ∧
    (∀ t, emGetByType t (emAddEntity e s) = emGetByType t s) ∧
    (e.id ∉ s.toRemove →
      (mapGet (emUpdate inp dt (emAddEntity e s)).entities e.id).isSome = true ∧
      e.id ∈ (emUpdate inp dt (emAddEntity e s)).byType e.etype) ∧
    (mapGet s.entities id = some e0 → e0.active = false →
      id ∉ s.toRemove → (∀ x ∈ s.toAdd, x.id ≠ id) →
      (∀ t, id ∈ s.byType t → t = e0.etype) → id ∈ s.byType e0.etype →
      e0 ∈ emGetAll s ∧
      e0 ∈ emGetByType e0.etype s ∧
      mapGet (emUpdate inp dt s).entities id = some e0 ∧
      e0 ∈ emGetAll (emUpdate inp dt s) ∧
      e0 ∈ emGetByType e0.etype (emUpdate inp dt s) ∧
      mapGet (emUpdate inp dt' (emUpdate inp dt s)).entities id = none ∧
      (∀ t, id ∉ (emUpdate inp dt' (emUpdate inp dt s)).byType t)) := by
  refine ⟨rfl, fun t => rfl, fun hrem => ⟨?_, ?_⟩, fun h1 h2 h3 h4 h6 h7 => ?_⟩
  · rw [emUpdate_mapGet,
      removeFold_mapGet_ne e.id (emAddEntity e s).toRemove _ hrem]
    have hs1 := addFold_isSome_of_mem (emAddEntity e s).toAdd e
      (List.mem_append_right s.toAdd (List.mem_singleton.mpr rfl)) (emAddEntity e s)
    rcases Option.isSome_iff_exists.mp hs1 with ⟨v, hv⟩
    rw [hv]
    rfl
  · rw [emUpdate_byType]
    exact (removeFold_byType_iff_ne e.id e.etype _ _ hrem).mpr
      (addFold_byType_of_mem (emAddEntity e s).toAdd e
        (List.mem_append_right s.toAdd (List.mem_singleton.mpr rfl)) (emAddEntity e s))
  · have hA1 : mapGet ((s.toAdd.foldl emAddStep s).entities) id = some e0 := by
      rw [addFold_mapGet_ne id s.toAdd s h4]
      exact h1
    have hA2 : mapGet ((s.toRemove.foldl emRemoveStep
        (s.toAdd.foldl emAddStep s)).entities) id = some e0 := by
      rw [removeFold_mapGet_ne id s.toRemove _ h3]
      exact hA1
    have hP3 : mapGet (emUpdate inp dt s).entities id = some e0 := by
      rw [emUpdate_mapGet, hA2]
      simp [h2]
    have hB2 : ∀ t, id ∈ (emUpdate inp dt s).byType t ↔ id ∈ s.byType t := by
      intro t
      rw [emUpdate_byType]
      exact (removeFold_byType_iff_ne id t s.toRemove _ h3).trans
        (addFold_byType_iff_ne id t s.toAdd s h4)
    have hP4 : id ∈ (emUpdate inp dt s).byType e0.etype := (hB2 _).mpr h7
    have hP6 : ∀ t, id ∈ (emUpdate inp dt s).byType t → t = e0.etype :=
      fun t ht => h6 t ((hB2 t).mp ht)
    have hidInRem : id ∈ (emUpdate inp dt s).toRemove := by
      rw [emUpdate_toRemove]
      exact mapGet_some_mem_staged _ id e0 hA2 h2
    refine ⟨mem_emGetAll_of_mapGet s id e0 h1,
      mem_emGetByType_of s e0.etype id e0 h1 h7,
      hP3,
      mem_emGetAll_of_mapGet _ id e0 hP3,
      mem_emGetByType_of _ e0.etype id e0 hP3 hP4,
      ?_, ?_⟩
    · rw [emUpdate_mapGet, emUpdate_toAdd, List.foldl_nil,
        removeFold_mapGet_none_of_mem id _ _ hidInRem]
      rfl
    · intro t
      rw [emUpdate_byType, emUpdate_toAdd, List.foldl_nil]
      exact removeFold_byType_clear id e0 _ _ hidInRem hP3 hP6 t

/-- The deactivation half of the claim as stated is false on the code: for
the barrel of `c1exState`, deactivated during frame N, one further `update`
call has run and the entity is still returned by `getAllEntities` and the
by-kind query — it is not "absent starting frame N+1". -/
theorem c1_claim_counterexample :
    (mapGet (emUpdate noInput (1/30) c1exState).entities 5).isSome = true ∧
    (emGetAll (emUpdate noInput (1/30) c1exState)).length = 1 ∧
    (emGetByType EntityType.barrel (emUpdate noInput (1/30) c1exState)).length = 1 ∧
    (mapGet (emUpdate noInput (1/30) (emUpdate noInput (1/30) c1exState)).entities
      5).isSome = false := by
  decide

/-- Witness for `c1_entity_lifecycle` on the deactivated barrel of
`c1exState`. -/
theorem c1_entity_lifecycle_witness :
    (mapGet c1exState.entities 5 = some (destroyE sampleBarrel) ∧
      (destroyE sampleBarrel).active = false) ∧
    mapGet (emUpdate noInput (1/30) c1exState).entities 5 =
      some (destroyE sampleBarrel) :=
  ⟨⟨rfl, rfl⟩,
    ((c1_entity_lifecycle c1exState samplePlayer (destroyE sampleBarrel) 5 noInput
      (1/30) (1/30)).2.2.2 rfl rfl (by decide) (by simp [c1exState])
      (by intro t; cases t <;> decide) (by decide)).2.2.1⟩

/-- Claim C3 (corrected).  The monotonicity half of the claim holds: once an
entity's `active` flag is `false`, none of `update`, `takeDamage`, `heal`,
`destroy` or `onCollision` ever sets it back to `true`.  The first half is
replaced by what `takeDamage` actually guarantees: it clamps health at 0 and
deactivates exactly when the damage brings health to `≤ 0`, and otherwise
leaves the flag alone — but `health > 0` does NOT imply `active = true`,
because `destroy()` deactivates without touching health (see
`c3_counterexample`). -/
theorem c3_active_flag_invariants :
    (∀ (e : Ent) (inp : InputState) (dt : ℚ),
      e.active = false → (entUpdate inp dt e).active = false) ∧
    (∀ (e : Ent) (d : ℚ), e.active = false → (takeDamageE d e).active = false) ∧
    (∀ (e : Ent) (a : ℚ), (healE a e).active = e.active) ∧
    (∀ e : Ent, (destroyE e).active = false) ∧
    (∀ a b : Ent, a.active = false → ((onCollisionE a b).1).active = false) ∧
    (∀ a b : Ent, b.active = false → ((onCollisionE a b).2).active = false) ∧
    (∀ (e : Ent) (d : ℚ),
      (e.health - d ≤ 0 →
        (takeDamageBase d e).health = 0 ∧ (takeDamageBase d e).active = false) ∧
      (0 < e.health - d →
        (takeDamageBase d e).health = e.health - d ∧
        (takeDamageBase d e).active = e.active)) := by
  refine ⟨fun e inp dt h => entUpdate_active_mono inp dt e h,
          fun e d h => takeDamageE_active_mono d e h,
          fun e a => healE_active a e,
          fun e => destroyE_active e,
          fun a b h => onCollisionE_fst_active_mono a b h,
          fun a b h => onCollisionE_snd_active_mono a b h,
          fun e d => ⟨fun h => ?_, fun h => ?_⟩⟩ <;>
    unfold takeDamageBase <;> split_ifs with h2 <;>
      first | exact ⟨rfl, rfl⟩ | (exfalso; linarith)

/-- The claim "`health > 0` implies `active = true`" is false on the code:
a full-health barrel hit by a player projectile is destroyed by its
`onCollision` handler with its health still 1. -/
theorem c3_claim_counterexample :
    ¬ (0 < (onCollisionE sampleBarrel sampleProjectile).1.health →
       (onCollisionE sampleBarrel sampleProjectile).1.active = true) := by decide

/-- Witness for `c3_active_flag_invariants` at a concrete input. -/
theorem c3_active_flag_invariants_witness :
    (destroyE samplePlayer).active = false ∧
    (entUpdate noInput (1/30) (destroyE samplePlayer)).active = false :=
  ⟨by decide, c3_active_flag_invariants.1 (destroyE samplePlayer) noInput (1/30) (by decide)⟩

/-- Claim C9 (confirmed).  `getLevelConfig` returns the fixed tuned table
entry for every (positive) level up to 10 — in particular level 1 has spawn
rate 0.8 and multipliers 1.0/1.0 with special chance 0 — and the level-25
config is synthesized (not in the table) with all values within the
documented caps and special-enemy chance exactly 1. -/
theorem c9_level_configs (cur level : ℕ) (h1 : 1 ≤ level) (h2 : level ≤ 10) :
    (∃ cfg, levelTable level = some cfg ∧ getLevelConfig cur level = cfg) ∧
    getLevelConfig cur 1 = ⟨1, 4/5, 1, 1, 0⟩ ∧
    levelTable 25 = none ∧
    (getLevelConfig cur 25).enemySpawnRate ≤ 8 ∧
    (getLevelConfig cur 25).enemySpeedMultiplier ≤ 4 ∧
    (getLevelConfig cur 25).enemyHealthMultiplier ≤ 10 ∧
    (getLevelConfig cur 25).specialEnemyChance = 1 := by
  refine ⟨?_, rfl, rfl, min_le_right _ _, min_le_right _ _, min_le_right _ _, rfl⟩
  interval_cases level <;> exact ⟨_, rfl, rfl⟩

/-- Witness for `c9_level_configs` at level 7. -/
theorem c9_level_configs_witness :
    (1 ≤ 7 ∧ 7 ≤ 10) ∧
    ∃ cfg, levelTable 7 = some cfg ∧ getLevelConfig 1 7 = cfg :=
  ⟨⟨by decide, by decide⟩, (c9_level_configs 1 7 (by decide) (by decide)).1⟩

/-- Claim C10 (confirmed).  After every `Player.update` call — for any held
input and any time step — the player's centre is clamped inside the
playfield: horizontally within `[sizeX/2, canvasW - sizeX/2]` and
vertically within the bottom band `[canvasH*0.6 + sizeY/2, canvasH -
sizeY/2]` (under the geometric sanity conditions that the player fits the
canvas: `sizeX ≤ canvasW` and `sizeY ≤ 0.4 * canvasH`, which hold for the
actual 40×40 player on the 800×600 canvas). -/
theorem c10_player_constrained (e : Ent) (inp : InputState) (dt : ℚ)
    (hx0 : 0 ≤ e.sizeX) (hy0 : 0 ≤ e.sizeY)
    (hsx : e.sizeX ≤ e.canvasW) (hsy : e.sizeY ≤ (2/5) * e.canvasH) :
    (playerUpdate inp dt e).sizeX / 2 ≤ (playerUpdate inp dt e).posX ∧
    (playerUpdate inp dt e).posX ≤
      (playerUpdate inp dt e).canvasW - (playerUpdate inp dt e).sizeX / 2 ∧
    (playerUpdate inp dt e).canvasH * (3/5) + (playerUpdate inp dt e).sizeY / 2 ≤
      (playerUpdate inp dt e).posY ∧
    (playerUpdate inp dt e).posY ≤
      (playerUpdate inp dt e).canvasH - (playerUpdate inp dt e).sizeY / 2 := by
  unfold playerUpdate playerConstrain playerHandleInput
  refine ⟨?_, ?_, ?_, ?_⟩ <;> simp only <;> split_ifs <;> linarith

/-- Claim C4 (confirmed).  At most one active effect per kind at any
instant (the per-kind count of `getActivePowerUps` is at most 1, and the
key/kind coherence this rests on is preserved by `addPowerUp`, `update` and
`clear`); `addPowerUp` stores the new effect with `timeRemaining` equal to
the new config's full duration; and re-adding rapid fire first reverts the
old effect (fire rate back to the 0.3 base) and then applies the new one,
so the resulting fire rate is `max 0.05 (0.3 * value)` independently of the
fire rate that the earlier effect had produced — replacement, not additive
stacking. -/
theorem c4_powerup_replacement (s : PUM) (cfg : PowerUpConfig) (dt : ℚ) :
    (pumCoherent s →
      ∀ t, ((pumGetActive s).filter (fun e => e.ptype = t)).length ≤ 1) ∧
    (pumCoherent s →
      pumCoherent (pumAdd cfg s) ∧ pumCoherent (pumUpdate dt s) ∧
      pumCoherent (pumClear s)) ∧
    (pumAdd cfg s).effects cfg.ptype =
      some ⟨cfg.ptype, cfg.duration, cfg.value, true, cfg.duration⟩ ∧
    (∀ p old, s.player = some p → s.effects PowerUpType.rapidFire = some old →
      cfg.ptype = PowerUpType.rapidFire →
      ∃ q, (pumAdd cfg s).player = some q ∧
        q.fireRate = max (1/20) ((3/10) * cfg.value)) := by
  refine ⟨fun hc t => ?_,
    fun hc => ⟨pumAdd_coherent cfg s hc, pumTicks_coherent dt kindsList s hc,
      pumRemoves_coherent kindsList s hc⟩, ?_, ?_⟩
  · exact filterMap_coherent_filter_le_one s.effects hc t kindsList (by decide)
  · simp [pumAdd]
  · intro p old hp he hcfg
    simp only [pumAdd, hcfg, he, Option.isSome_some, if_true, pumRemove, hp,
      pumApplyPlayer, pumRevertPlayer, setFireRateE, Option.map_some]
    refine ⟨_, rfl, ?_⟩
    simp [pumApplyPlayer, setFireRateE]
    norm_num

/-- Witness for `c4_powerup_replacement`: re-adding rapid fire over the
mid-flight effect of `pumRF`. -/
theorem c4_powerup_replacement_witness :
    (pumRF.player = some { samplePlayer with fireRate := 3/20 } ∧
      pumRF.effects PowerUpType.rapidFire =
        some ⟨PowerUpType.rapidFire, 8, 1/2, true, 2⟩ ∧
      (configOf PowerUpType.rapidFire).ptype = PowerUpType.rapidFire) ∧
    ∃ q, (pumAdd (configOf PowerUpType.rapidFire) pumRF).player = some q ∧
      q.fireRate = max (1/20) ((3/10) * (configOf PowerUpType.rapidFire).value) :=
  ⟨⟨rfl, rfl, rfl⟩,
    (c4_powerup_replacement pumRF (configOf PowerUpType.rapidFire) 0).2.2.2
      _ _ rfl rfl rfl⟩

/-- Claim C5 (corrected).  A duration-0 power-up (health restore) is indeed
applied exactly once, at `addPowerUp` time (the player is healed then and
`update` never changes player health) — but it IS tracked as active
afterwards: `addPowerUp` stores it in the map, `update` skips effects with
`duration ≤ 0` entirely, so `hasPowerUp` stays `true` and the stored effect
survives every later `update` unchanged (contrary to the claim's "never
tracked as active"; see `c5_claim_counterexample`). -/
theorem c5_duration_zero_tracking (s : PUM) (p : Ent) (dt : ℚ)
    (hp : s.player = some p) :
    (pumAdd (configOf PowerUpType.healthRestore) s).player = some (healE 1 p) ∧
    pumHas PowerUpType.healthRestore
      (pumAdd (configOf PowerUpType.healthRestore) s) = true ∧
    (∀ (s' : PUM) (e : PowerUpEffect),
      s'.effects PowerUpType.healthRestore = some e → e.duration ≤ 0 →
      (pumUpdate dt s').effects PowerUpType.healthRestore = some e) ∧
    (∀ s' : PUM,
      ((pumUpdate dt s').player).map Ent.health = (s'.player).map Ent.health) := by
  have hp1 : (if (s.effects PowerUpType.healthRestore).isSome
      then pumRemove PowerUpType.healthRestore s else s).player = some p := by
    split_ifs with h
    · obtain ⟨e0, he0⟩ := Option.isSome_iff_exists.mp h
      simp only [pumRemove, he0, hp]
      rfl
    · exact hp
  refine ⟨?_, ?_, ?_, ?_⟩
  · simp only [pumAdd, configOf]
    rw [hp1]
    rfl
  · simp [pumAdd, pumHas, configOf]
  · intro s' e he hd
    exact pumTicks_preserve_nonpos dt kindsList PowerUpType.healthRestore e hd s' he
  · intro s'
    exact pumTicks_playerHP dt kindsList s'

/-- The claim "a duration-0 effect is never tracked as active" is false on
the code: right after collecting a health restore, `hasPowerUp` reports it
active, `getActivePowerUps` lists it, and it is still there after an
`update`. -/
theorem c5_claim_counterexample :
    pumHas PowerUpType.healthRestore
      (pumAdd (configOf PowerUpType.healthRestore) pumS0) = true ∧
    (pumGetActive (pumAdd (configOf PowerUpType.healthRestore) pumS0)).map
      (fun e => e.ptype) = [PowerUpType.healthRestore] ∧
    pumHas PowerUpType.healthRestore
      (pumUpdate (1/30) (pumAdd (configOf PowerUpType.healthRestore) pumS0)) = true := by
  decide

/-- Witness for `c5_duration_zero_tracking` on the fresh manager. -/
theorem c5_duration_zero_tracking_witness :
    pumS0.player = some samplePlayer ∧
    (pumAdd (configOf PowerUpType.healthRestore) pumS0).player =
      some (healE 1 samplePlayer) :=
  ⟨rfl, (c5_duration_zero_tracking pumS0 samplePlayer (1/30) rfl).1⟩

/-- Claim C6 (confirmed).  Whatever fire rate the player had before the
rapid-fire effect, when the effect expires during `update` (or the manager
is cleared) the revert sets the fire rate to the hardcoded default constant
0.3 — not to the pre-effect value. -/
theorem c6_rapid_fire_reverts_to_default (s : PUM) (e : PowerUpEffect) (p : Ent)
    (dt : ℚ) (he : s.effects PowerUpType.rapidFire = some e)
    (hd : 0 < e.duration) (hexp : e.timeRemaining - dt ≤ 0)
    (hp : s.player = some p) :
    (pumUpdate dt s).effects PowerUpType.rapidFire = none ∧
    ((pumUpdate dt s).player).map Ent.fireRate = some (3/10) ∧
    ((pumClear s).player).map Ent.fireRate = some (3/10) := by
  have hmax : max ((1:ℚ)/20) (3/10) = 3/10 := max_eq_right (by norm_num)
  have heff1 : (pumTick dt PowerUpType.rapidFire s).effects PowerUpType.rapidFire
      = none := by
    simp only [pumTick, he]
    rw [if_pos hd, if_pos (by simpa using hexp)]
    simp [pumRemove, hp]
  have hfr1 : ((pumTick dt PowerUpType.rapidFire s).player).map Ent.fireRate
      = some (3/10) := by
    simp only [pumTick, he]
    rw [if_pos hd, if_pos (by simpa using hexp)]
    simp [pumRemove, hp, pumRevertPlayer, setFireRateE, hmax]
    norm_num
  have hupd : pumUpdate dt s =
      [PowerUpType.multiShot, PowerUpType.shield, PowerUpType.damageBoost,
        PowerUpType.healthRestore].foldl (fun acc k => pumTick dt k acc)
        (pumTick dt PowerUpType.rapidFire s) := rfl
  have hclear : pumClear s =
      [PowerUpType.multiShot, PowerUpType.shield, PowerUpType.damageBoost,
        PowerUpType.healthRestore].foldl (fun acc k => pumRemove k acc)
        (pumRemove PowerUpType.rapidFire s) := rfl
  refine ⟨?_, ?_, ?_⟩
  · rw [hupd, pumTicks_effects_ne dt _ PowerUpType.rapidFire (by decide)]
    exact heff1
  · rw [hupd, pumTicks_playerFR dt _ (by decide)]
    exact hfr1
  · rw [hclear, pumRemoves_playerFR 0 _ (by decide)]
    simp only [pumRemove, he, hp]
    simp [pumRevertPlayer, setFireRateE, hmax]
    norm_num

/-- Witness for `c6_rapid_fire_reverts_to_default`: the mid-flight
rapid-fire effect of `pumRF` expiring under a 3-second step. -/
theorem c6_rapid_fire_reverts_to_default_witness :
    (pumRF.effects PowerUpType.rapidFire =
        some ⟨PowerUpType.rapidFire, 8, 1/2, true, 2⟩ ∧
      (0:ℚ) < 8 ∧ (2:ℚ) - 3 ≤ 0) ∧
    ((pumUpdate 3 pumRF).player).map Ent.fireRate = some (3/10) :=
  ⟨⟨rfl, by decide, by decide⟩,
    (c6_rapid_fire_reverts_to_default pumRF _ _ 3 rfl (by decide) (by decide) rfl).2.1⟩

/-- Claim C8 (confirmed), part (a) machinery: along any run of the shooting
loop with nonnegative frame times, the fire rate is invariant, shots consume
at least `fireRate` of accumulated time each, and the accumulator stays
nonnegative. -/
theorem runShots_inv (dts : List ℚ) :
    ∀ p : ShotState, (∀ d ∈ dts, 0 ≤ d) →
      (runShots p dts).1.fireRate = p.fireRate ∧
      p.fireRate * ((runShots p dts).2 : ℚ) + (runShots p dts).1.lastShotTime ≤
        p.lastShotTime + dts.sum ∧
      (0 ≤ p.lastShotTime → 0 ≤ (runShots p dts).1.lastShotTime) := by
  induction dts with
  | nil =>
      intro p _
      exact ⟨rfl, by simp [runShots], fun h0 => h0⟩
  | cons d ds ih =>
      intro p h
      have hd : 0 ≤ d := h d (List.mem_cons_self d ds)
      have hds : ∀ x ∈ ds, 0 ≤ x := fun x hx => h x (List.mem_cons_of_mem d hx)
      by_cases hf : p.lastShotTime ≥ p.fireRate
      · have hstep : shotFrame d p = ({ p with lastShotTime := 0 + d }, true) := by
          simp [shotFrame, hf]
        have hrun : runShots p (d :: ds) =
            ((runShots { p with lastShotTime := 0 + d } ds).1,
              1 + (runShots { p with lastShotTime := 0 + d } ds).2) := by
          simp [runShots, hstep]
        obtain ⟨ihf, ihb, ihn⟩ := ih { p with lastShotTime := 0 + d } hds
        dsimp only at ihf ihb ihn
        rw [hrun]
        refine ⟨ihf, ?_, fun _ => ihn (by simpa using hd)⟩
        push_cast
        simp only [List.sum_cons]
        nlinarith [ihb, hf]
      · have hstep : shotFrame d p = ({ p with lastShotTime := p.lastShotTime + d }, false) := by
          simp [shotFrame, hf]
        have hrun : runShots p (d :: ds) =
            ((runShots { p with lastShotTime := p.lastShotTime + d } ds).1,
              0 + (runShots { p with lastShotTime := p.lastShotTime + d } ds).2) := by
          simp [runShots, hstep]
        obtain ⟨ihf, ihb, ihn⟩ := ih { p with lastShotTime := p.lastShotTime + d } hds
        dsimp only at ihf ihb ihn
        rw [hrun]
        refine ⟨ihf, ?_, fun h0 => ihn (by linarith)⟩
        push_cast
        simp only [List.sum_cons]
        nlinarith [ihb]

theorem multiShotAngle3_0 : multiShotAngle 3 0 = -(Real.pi / 12) := by
  unfold multiShotAngle
  norm_num
  ring

theorem multiShotAngle3_1 : multiShotAngle 3 1 = 0 := by
  unfold multiShotAngle
  norm_num
  ring

theorem multiShotAngle3_2 : multiShotAngle 3 2 = Real.pi / 12 := by
  unfold multiShotAngle
  norm_num
  ring

theorem multiShotDirections3 :
    multiShotDirections 3 =
      [(Real.sin (-(Real.pi / 12)), -Real.cos (-(Real.pi / 12))),
       (Real.sin 0, -Real.cos 0),
       (Real.sin (Real.pi / 12), -Real.cos (Real.pi / 12))] := by
  unfold multiShotDirections
  rw [show List.range 3 = [0, 1, 2] from rfl]
  simp [multiShotAngle3_0, multiShotAngle3_1, multiShotAngle3_2]

/-- Claim C8 (confirmed).  (a) With the default fire rate 0.3 s and an
initially cold cooldown, the number of shots produced along any run with
nonnegative frame times satisfies `0.3 * shots ≤ total elapsed time`: at
most one shot per 0.3 s of elapsed game time (the engine polls the cooldown
before each frame's update, which then accumulates `dt`).  (b) With
multi-shot count 3, a single shoot action produces exactly 3 direction
vectors; they are symmetric about straight-up (negating the x components
reverses the list, and the middle direction is exactly `(0, -1)`), and the
total angular spread is the configured `π/6`. -/
theorem c8_shooting_cadence_and_fan (dts : List ℚ) (h : ∀ d ∈ dts, 0 ≤ d) :
    (3/10 : ℚ) * (((runShots {} dts).2 : ℕ) : ℚ) ≤ dts.sum ∧
    (multiShotDirections 3).length = 3 ∧
    (multiShotDirections 3).map (fun v => (-v.1, v.2)) =
      (multiShotDirections 3).reverse ∧
    (multiShotDirections 3).get? 1 = some (0, -1) ∧
    multiShotAngle 3 2 - multiShotAngle 3 0 = Real.pi / 6 := by
  refine ⟨?_, ?_, ?_, ?_, ?_⟩
  · obtain ⟨_, hb, hn⟩ := runShots_inv dts ({} : ShotState) h
    have h0 : (0:ℚ) ≤ ({} : ShotState).lastShotTime := le_refl 0
    have hfinal := hn h0
    have hfr : ({} : ShotState).fireRate = 3/10 := rfl
    have hlast : ({} : ShotState).lastShotTime = 0 := rfl
    rw [hfr, hlast] at hb
    linarith
  · rw [multiShotDirections3]
    rfl
  · rw [multiShotDirections3]
    simp [Real.sin_neg, Real.cos_neg]
  · rw [multiShotDirections3]
    simp
  · rw [multiShotAngle3_0, multiShotAngle3_2]
    ring

/-- Witness for `c8_shooting_cadence_and_fan`: three frames of 0.3 s each
produce 2 shots (the cold start forfeits the first frame). -/
theorem c8_shooting_cadence_and_fan_witness :
    (∀ d ∈ [(3:ℚ)/10, 3/10, 3/10], 0 ≤ d) ∧
    (3/10 : ℚ) * (((runShots {} [(3:ℚ)/10, 3/10, 3/10]).2 : ℕ) : ℚ) ≤
      [(3:ℚ)/10, 3/10, 3/10].sum :=
  ⟨by decide, (c8_shooting_cadence_and_fan [(3:ℚ)/10, 3/10, 3/10] (by decide)).1⟩

/-- Witness for `c10_player_constrained` at the fresh player. -/
theorem c10_player_constrained_witness :
    (samplePlayer.sizeX ≤ samplePlayer.canvasW ∧
      samplePlayer.sizeY ≤ (2/5) * samplePlayer.canvasH) ∧
    (playerUpdate noInput (1/30) samplePlayer).sizeX / 2 ≤
      (playerUpdate noInput (1/30) samplePlayer).posX :=
  ⟨⟨by decide, by decide⟩,
    (c10_player_constrained samplePlayer noInput (1/30)
      (by decide) (by decide) (by decide) (by decide)).1⟩

set_option maxRecDepth 100000

/-- Claim C2 (code bug).  A destroyed barrel does NOT yield exactly one
power-up spawn over the whole run: `handleEntityDestruction` scans
`getAllEntities` every frame, and the entity manager keeps an inactive
entity in the live map for one extra update (removal is only staged), so
the same inactive barrel is processed by the destruction pass on two
consecutive frames.  Concretely, for `c2Init` (player plus a barrel with
id 7 at (100, 670) that self-destroys on its first update), the spawn log
holds TWO entries after two frames — both of the barrel's assigned kind at
the barrel's position — and still exactly those two after twelve frames;
the barrel is already inactive after frame 1. -/
theorem c2_barrel_double_powerup_spawn :
    ((engRun noInput (1/30) c2Init 2).spawnedPU.map (fun p => p.2) =
      [(100, 670), (100, 670)]) ∧
    ((engRun noInput (1/30) c2Init 2).spawnedPU.all
      (fun p => p.1 = PowerUpType.multiShot) = true) ∧
    ((engRun noInput (1/30) c2Init 12).spawnedPU.length = 2) ∧
    (Option.map Ent.active (mapGet (engRun noInput (1/30) c2Init 1).mgr.entities 7) =
      some false) := by
  decide

/-- Claim C7 (code bug).  A non-boss enemy that crosses the bottom
boundary never causes the claimed one point of contact damage: the enemy
destroys itself as soon as `posY - sizeY/2 > canvasH` (y ≈ 618 for a 35px
enemy on a 600px canvas), inactive entities are never moved again, and the
engine's damage check requires `posY > canvasH + 50 = 650`, so it can
never fire.  Concretely, for `c7Init` (full-health player, basic enemy id
9 at (100, 616) moving down at 80px/s): after two frames the enemy is
inactive with its health untouched (2) and frozen at y = 1856/3 < 650;
after twelve frames the player has received zero damage events and still
has all 3 health. -/
theorem c7_bottom_boundary_damage_never_fires :
    ((engRun noInput (1/30) c7Init 12).playerDamageEvents = 0) ∧
    (Option.map (fun e => (e.active, e.health, e.posY))
      (mapGet (engRun noInput (1/30) c7Init 2).mgr.entities 9) =
      some (false, 2, 1856/3)) ∧
    ((1856 : ℚ)/3 < 600 + 50) ∧
    (Option.map Ent.health (mapGet (engRun noInput (1/30) c7Init 12).mgr.entities 1) =
      some 3) := by
  decide

end VDG
